import Mathlib

/-!
# A shallow embedding of the port-tariff deterministic cost engine

This file embeds the core calculation engine of the `portlog-project`
repository (files `src/models/schema.py`, `src/models/utils.py`,
`src/core/calculator.py`) into Lean 4 and proves properties about it.

Modelling conventions:
* Python numbers (`int`/`float`) are modelled as exact rationals (`ℚ`);
  `float` literals such as `-0.10` become the exact rational `-1/10`.
* Python dynamic values occurring in rule conditions and contexts are
  modelled by the inductive type `Value` below (int, float, str, bool,
  list, None).
* A Python `dict` context is an association list with unique keys;
  `dict.get(k)` returns the `noneV` value when the key is absent, and the
  stored value (possibly `noneV`) when present, exactly like Python
  returns `None` in both cases.
* Code that can raise a `TypeError` (an unsupported comparison between
  `None` and a number) is modelled in the `Except String` monad.
-/

/-- Dynamic Python values used in rule conditions and contexts. -/
inductive Value where
  | intV (i : Int)
  | floatV (q : ℚ)
  | strV (s : String)
  | boolV (b : Bool)
  | listV (vs : List Value)
  | noneV

/-- `isinstance(v, (int, float))` together with numeric coercion: Python
`bool` is a subclass of `int`, so booleans count as numbers (1 / 0). -/
def vNum? : Value → Option ℚ
  | .intV i => some (i : ℚ)
  | .floatV q => some q
  | .boolV b => some (if b then 1 else 0)
  | _ => none

/-- Python truthiness (`bool(v)`). -/
def pyTruthy : Value → Bool
  | .intV i => i != 0
  | .floatV q => q != 0
  | .strV s => s != ""
  | .boolV b => b
  | .listV vs => !vs.isEmpty
  | .noneV => false

/-- Is the value the Python string type? (`isinstance(v, str)`) -/
def isStrV : Value → Bool
  | .strV _ => true
  | _ => false

/-- Is the value Python `None`? (`v is None`) -/
def isNoneV : Value → Bool
  | .noneV => true
  | _ => false

mutual
/-- Python `==` on dynamic values: the numeric tower (`int`/`float`/`bool`)
compares by value, strings by content, lists element-wise, `None` only to
`None`; everything else is unequal. -/
def pyEq : Value → Value → Bool
  | .strV s, .strV t => s == t
  | .listV as, .listV bs => pyEqList as bs
  | .noneV, .noneV => true
  | a, b =>
    match vNum? a, vNum? b with
    | some x, some y => x == y
    | _, _ => false

/-- Python `==` on lists, element-wise. -/
def pyEqList : List Value → List Value → Bool
  | [], [] => true
  | a :: as, b :: bs => pyEq a b && pyEqList as bs
  | _, _ => false
end

/-- Numeric value of a list of decimal digit characters. -/
def digitsVal (ds : List Char) : Nat :=
  ds.foldl (fun n c => 10 * n + (c.toNat - 48)) 0

/-- Parse the regex match `\d+\.?\d*` starting at a digit: an integer part,
an optional dot, an optional fractional part. -/
def parseNumAt (l : List Char) : ℚ :=
  let ds := l.takeWhile Char.isDigit
  let rest := l.dropWhile Char.isDigit
  let fs := match rest with
    | c :: cs => if c = Char.ofNat 46 then cs.takeWhile Char.isDigit else []
    | [] => []
  (digitsVal ds : ℚ) + (digitsVal fs : ℚ) / (10 : ℚ) ^ fs.length

/-- First match of `re.findall(r"\d+\.?\d*", s)` converted by `float`,
as used by `try_convert_to_number` in `src/models/utils.py`. -/
def extractNumAux : List Char → Option ℚ
  | [] => none
  | c :: cs => if c.isDigit then some (parseNumAt (c :: cs)) else extractNumAux cs

/-- Extract the first embedded numeric substring of a string, if any. -/
def extractNum (s : String) : Option ℚ :=
  extractNumAux s.data

/-- `try_convert_to_number` from `src/models/utils.py`: numbers (and bools)
are returned unchanged, strings are parsed via the first embedded numeric
substring, anything else is returned unchanged. -/
def pyTryNum : Value → Value
  | .strV s =>
    match extractNum s with
    | some q => .floatV q
    | none => .strV s
  | v => v

/-- Decimal digits of a natural number, padded on the left with zeros to
width `w`. -/
def natDigitsPadded (n w : Nat) : String :=
  let s := toString n
  let pad := w - s.length
  String.mk (List.replicate pad (Char.ofNat 48)) ++ s

/-- Least exponent `k ≤ 30` with `d ∣ 10 ^ k`, if any. -/
def decExp (d : Nat) : Option Nat :=
  (List.range 31).find? (fun k => decide (d ∣ 10 ^ k))

/-- Rendering of a Python `float` (`str(x)`), modelled for rationals with a
finite decimal expansion; CPython prints the shortest round-tripping
decimal, which for such values is the exact expansion without trailing
zeros. Rationals without a finite decimal expansion do not arise from
Python floats; they get an artificial fraction rendering. -/
def pyFloatStr (q : ℚ) : String :=
  if q.den = 1 then toString q.num ++ ".0"
  else
    match decExp q.den with
    | some k =>
      let m := q.num.natAbs * (10 ^ k / q.den)
      let sign := if q.num < 0 then "-" else ""
      sign ++ toString (m / 10 ^ k) ++ "." ++ natDigitsPadded (m % 10 ^ k) k
    | none => toString q.num ++ "/" ++ toString q.den

mutual
/-- Python `str(v)` on dynamic values. -/
def pyStr : Value → String
  | .intV i => toString i
  | .floatV q => pyFloatStr q
  | .strV s => s
  | .boolV b => if b then "True" else "False"
  | .listV vs => "[" ++ pyStrList vs ++ "]"
  | .noneV => "None"

/-- Comma-separated `repr` of list elements, as in Python `str(list)`. -/
def pyStrList : List Value → String
  | [] => ""
  | [v] => pyRepr v
  | v :: vs => pyRepr v ++ ", " ++ pyStrList vs

/-- Python `repr(v)`: like `str` except strings gain quotes. -/
def pyRepr : Value → String
  | .strV s => "\x27" ++ s ++ "\x27"
  | v => pyStr v
end

/-- Lexicographic comparison of char lists by code point, the Python `<`
on strings. -/
def charListLt : List Char → List Char → Bool
  | [], [] => false
  | [], _ :: _ => true
  | _ :: _, [] => false
  | a :: as, b :: bs =>
    if a.toNat < b.toNat then true
    else if b.toNat < a.toNat then false
    else charListLt as bs

/-- Python `s < t` on strings. -/
def pyStrLt (s t : String) : Bool :=
  charListLt s.data t.data

/-- Is `needle` a prefix of `hay`? -/
def charListStartsWith : List Char → List Char → Bool
  | [], _ => true
  | _ :: _, [] => false
  | a :: as, b :: bs => a == b && charListStartsWith as bs

/-- Is `needle` a contiguous substring of `hay`? -/
def charListIsSub (needle : List Char) : List Char → Bool
  | [] => needle.isEmpty
  | c :: cs => charListStartsWith needle (c :: cs) || charListIsSub needle cs

/-- Python `needle in hay` on strings (substring test). -/
def sSub (needle hay : String) : Bool :=
  charListIsSub needle.data hay.data

/-! ## The rule model (`src/models/schema.py`) -/

/-- `VesselType` enumeration from `src/models/schema.py`. -/
inductive VesselType where
  | tankers | container_vessels | roro_vessels | car_carriers
  | ropax_passenger_vessels | cruise_vessels | break_bulk_lolo_vessels
  | inland_waterways | yachts | archipelago_traffic | harbour_vessels
  | other_vessels
deriving DecidableEq

/-- `TariffComponent` enumeration from `src/models/schema.py`. -/
inductive TariffComponent where
  | port_infrastructure_dues | ship_generated_solid_waste
  | sludge_oily_bilge_water | scrubber_waste | environmental_discounts
  | fresh_water | rinsing_water | lay_up_dues | connecting_to_ops
  | introductory_discount | frequency_discount | isps_fees | passenger_dues
  | black_grey_water | security_patrol_isps_due | passing_vessel_dues
  | bunkering_crew_change_provisioning_discount
  | repairs_laying_up_tank_cleaning_fees | service_vessels_naval_ship_fees
  | port_dues_for_cargo
deriving DecidableEq

/-- The string `.value` of a `TariffComponent` member. -/
def TariffComponent.value : TariffComponent → String
  | .port_infrastructure_dues => "port_infrastructure_dues"
  | .ship_generated_solid_waste => "ship_generated_solid_waste"
  | .sludge_oily_bilge_water => "sludge_oily_bilge_water"
  | .scrubber_waste => "scrubber_waste"
  | .environmental_discounts => "environmental_discounts"
  | .fresh_water => "fresh_water"
  | .rinsing_water => "rinsing_water"
  | .lay_up_dues => "lay_up_dues"
  | .connecting_to_ops => "connecting_to_ops"
  | .introductory_discount => "introductory_discount"
  | .frequency_discount => "frequency_discount"
  | .isps_fees => "isps_fees"
  | .passenger_dues => "passenger_dues"
  | .black_grey_water => "black_grey_water"
  | .security_patrol_isps_due => "security_patrol_isps_due"
  | .passing_vessel_dues => "passing_vessel_dues"
  | .bunkering_crew_change_provisioning_discount =>
      "bunkering_crew_change_provisioning_discount"
  | .repairs_laying_up_tank_cleaning_fees =>
      "repairs_laying_up_tank_cleaning_fees"
  | .service_vessels_naval_ship_fees => "service_vessels_naval_ship_fees"
  | .port_dues_for_cargo => "port_dues_for_cargo"

/-- `ChargingMethod` enumeration from `src/models/schema.py`. -/
inductive ChargingMethod where
  | per_gt | per_m3 | per_ton | per_metre_loa | flat_sek_per_call
  | per_24h_period | per_passenger | per_teu | per_call | percentage
deriving DecidableEq

/-- The string `.value` of a `ChargingMethod` member. -/
def ChargingMethod.value : ChargingMethod → String
  | .per_gt => "per_gt"
  | .per_m3 => "per_m3"
  | .per_ton => "per_ton"
  | .per_metre_loa => "per_metre_loa"
  | .flat_sek_per_call => "flat_sek_per_call"
  | .per_24h_period => "per_24h_period"
  | .per_passenger => "per_passenger"
  | .per_teu => "per_teu"
  | .per_call => "per_call"
  | .percentage => "percentage"

/-- `Band` model: a half-open interval tagged with a `band_type`. -/
structure Band where
  name : String
  min_value : Option ℚ := none
  max_value : Option ℚ := none
  band_type : String
deriving DecidableEq

/-- `Condition` model: a field, an operator and a target value. -/
structure Condition where
  field : String
  operator : String
  value : Value
  description : Option String := none

/-- `PricingRule` model: rate / flat fee / percentage and clamp bounds. -/
structure PricingRule where
  rate : Option ℚ := none
  currency : String := "SEK"
  flat_fee : Option ℚ := none
  percentage : Option ℚ := none
  formula : Option String := none
  min_charge : Option ℚ := none
  max_charge : Option ℚ := none

/-- `TariffRule` model: vessel type + component + charging method with
bands, conditions and pricing. -/
structure TariffRule where
  vessel_type : VesselType
  component : TariffComponent
  charging_method : ChargingMethod
  bands : List Band := []
  conditions : List Condition := []
  pricing : PricingRule
  description : Option String := none
  notes : Option String := none

/-- `TariffDatabase` model: ordered rules plus metadata. -/
structure TariffDatabase where
  rules : List TariffRule
  version : String := "2025"
  port_name : String := "Port of Gothenburg"

/-- `TariffDatabase.get_rules`: filter by optional vessel type and
optional component. -/
def TariffDatabase.get_rules (db : TariffDatabase)
    (vessel_type : Option VesselType := none)
    (component : Option TariffComponent := none) : List TariffRule :=
  let f1 := match vessel_type with
    | some vt => db.rules.filter (fun r => r.vessel_type = vt)
    | none => db.rules
  match component with
  | some c => f1.filter (fun r => r.component = c)
  | none => f1

/-! ## Contexts (Python dicts of dynamic values) -/

/-- A parameter/condition context: an association list modelling a Python
dict (keys are unique in every context this file constructs). -/
def Ctx : Type := List (String × Value)

/-- Raw dict lookup: `some v` when the key is present. -/
def ctxFind : Ctx → String → Option Value
  | [], _ => none
  | (k, v) :: rest, f => if k = f then some v else ctxFind rest f

/-- Python `dict.get(k, d)`: the stored value when the key is present
(which may itself be `None`), else the default. -/
def ctxGetD (ctx : Ctx) (k : String) (d : Value) : Value :=
  (ctxFind ctx k).getD d

/-- Python `dict.get(k)`: `None` both for an absent key and a stored
`None`. -/
def ctxGet (ctx : Ctx) (k : String) : Value :=
  ctxGetD ctx k .noneV

/-! ## Condition evaluation (`src/models/utils.py`) -/

/-- The field-name aliasing table of `evaluate_condition`
(`field_mapping.get(field, field)`). -/
def fieldAlias (f : String) : String :=
  if f = "arrival port" then "arrival_origin"
  else if f = "arrival_region" then "arrival_origin"
  else if f = "sludge_volume" then "sludge_volume"
  else if f = "sludge_volume_m3" then "sludge_volume"
  else if f = "quantity" then "sludge_volume"
  else if f = "calls_per_week" then "calls_per_week"
  else if f = "calls_per_week_on_service" then "calls_per_week"
  else if f = "certificates" then "discount_certificate_for_waste"
  else if f = "ESI score" then "esi_score"
  else if f = "fossil-free fuel percentage" then "fossil_free_fuel_share"
  else f

/-- Field resolution of `evaluate_condition`: look up the aliased field,
falling back to the raw field name when that gave `None`. -/
def resolveField (c : Condition) (ctx : Ctx) : Value :=
  let fv := ctxGet ctx (fieldAlias c.field)
  if isNoneV fv then ctxGet ctx c.field else fv

/-- Equality-class operators (`"from"` and `"must"` mean `"equals"`). -/
def eqOps : List String := ["eq", "=", "==", "equals", "from", "must"]

/-- Inequality operators. -/
def neOps : List String := ["ne", "!=", "<>", "not_equals"]

/-- Strictly-greater operators (`"more than"` means `"greater than"`). -/
def gtOps : List String := ["gt", ">", "greater_than", "more than"]

/-- Greater-or-equal operators. -/
def gteOps : List String := ["gte", ">=", "greater_than_or_equal", "at least"]

/-- Strictly-less operators. -/
def ltOps : List String := ["lt", "<", "less_than", "less than"]

/-- Less-or-equal operators. -/
def lteOps : List String := ["lte", "<=", "less_than_or_equal", "at most"]

/-- Membership operators. -/
def inOps : List String := ["in", "contains"]

/-- Negated membership operators. -/
def notInOps : List String := ["not_in", "not contains"]

/-- The four comparison shapes of the ordering operators. -/
inductive OrdOp where
  | gtc | gec | ltc | lec
deriving DecidableEq

/-- Ordering comparison with numeric coercion, as in `evaluate_condition`:
both sides are passed through `try_convert_to_number`; if both are then
numbers the comparison is numeric, otherwise both are converted by `str`
and compared as Python strings (case-sensitively). The field/target pair
reaching the final comparison is always homogeneous, so no `TypeError`
can arise here. -/
def ordCmp (o : OrdOp) (fv tv : Value) : Bool :=
  let fv2 := pyTryNum fv
  let tv2 := pyTryNum tv
  match vNum? fv2, vNum? tv2 with
  | some a, some b =>
    match o with
    | .gtc => decide (b < a)
    | .gec => decide (b ≤ a)
    | .ltc => decide (a < b)
    | .lec => decide (a ≤ b)
  | _, _ =>
    let s := pyStr fv2
    let t := pyStr tv2
    match o with
    | .gtc => pyStrLt t s
    | .gec => !pyStrLt s t
    | .ltc => pyStrLt s t
    | .lec => !pyStrLt t s

/-- Recognised context spellings of a non-EU arrival. -/
def nonEuIndicators : List String :=
  ["non-eu", "non_eu", "non-europe", "non_europe", "non-european",
   "non_european"]

/-- The equality-class branch of `evaluate_condition` (lines 92–123 of
`src/models/utils.py`), with the arrival-field and certificate-field
special cases. -/
def evalEq (c : Condition) (fv tv : Value) : Bool :=
  if c.field = "arrival port" ∨ c.field = "arrival_region" then
    match tv with
    | .strV t =>
      let tl := t.toLower
      let fl := if pyTruthy fv then (pyStr fv).toLower else ""
      if sSub "non" tl then
        decide (fl ∈ nonEuIndicators) || pyEq fv (.strV "non-EU") ||
          pyEq fv (.strV "non_EU") ||
          (isStrV fv && sSub "non" fl && (sSub "eu" fl || sSub "europe" fl))
      else if sSub "eu" tl || sSub "europe" tl || sSub "european" tl then
        (fl == "eu" || fl == "europe" || fl == "european") ||
          pyEq fv (.strV "EU")
      else (pyStr fv).toLower == (pyStr tv).toLower
    | _ => (pyStr fv).toLower == (pyStr tv).toLower
  else if c.field = "certificates" then
    match tv with
    | .strV t =>
      let tl := t.toLower
      if sSub "valid" tl || sSub "has" tl || sSub "true" tl then pyTruthy fv
      else pyTruthy fv == pyTruthy tv
    | _ => pyTruthy fv == pyTruthy tv
  else pyEq fv tv

/-- Python `field_value in target_value`: list membership when the target
is a list, else a substring test on the `str` renderings. -/
def pyIn (fv tv : Value) : Bool :=
  match tv with
  | .listV vs => vs.any (fun e => pyEq fv e)
  | _ => sSub (pyStr fv) (pyStr tv)

/-- `evaluate_condition` from `src/models/utils.py`. In the source the
numeric coercion runs before the operator dispatch but only when the
operator is one of the ordering operators (the union of `gtOps`, `gteOps`,
`ltOps`, `lteOps`), so it is equivalently performed inside `ordCmp`. -/
def evaluate_condition (c : Condition) (ctx : Ctx) : Bool :=
  let fv := resolveField c ctx
  if isNoneV fv then false
  else
    let op := c.operator.toLower
    let tv := c.value
    if op ∈ eqOps then evalEq c fv tv
    else if op ∈ neOps then !pyEq fv tv
    else if op ∈ gtOps then ordCmp .gtc fv tv
    else if op ∈ gteOps then ordCmp .gec fv tv
    else if op ∈ ltOps then ordCmp .ltc fv tv
    else if op ∈ lteOps then ordCmp .lec fv tv
    else if op ∈ inOps then pyIn fv tv
    else if op ∈ notInOps then !pyIn fv tv
    else (pyStr fv).toLower == (pyStr tv).toLower

/-- Is a condition one of the special "arrival port" equality conditions
grouped by `check_rule_applicable` (field in
`["arrival port", "arrival_region"]`, lowercased operator in
`["from", "eq", "="]`)? -/
def isArrivalEqCond (c : Condition) : Bool :=
  (c.field == "arrival port" || c.field == "arrival_region") &&
    (c.operator.toLower == "from" || c.operator.toLower == "eq" ||
      c.operator.toLower == "=")

/-- `check_rule_applicable` from `src/models/utils.py`. The source builds
`other_conditions` as `[c for c in conditions if c not in
arrival_port_conditions]`; since membership is structural and
`isArrivalEqCond` depends only on the structure, this is exactly the
complement filter. -/
def check_rule_applicable (rule : TariffRule) (ctx : Ctx) : Bool :=
  if rule.conditions.isEmpty then true
  else
    let aps := rule.conditions.filter isArrivalEqCond
    if 1 < aps.length then
      aps.any (fun c => evaluate_condition c ctx) &&
        (rule.conditions.filter (fun c => !isArrivalEqCond c)).all
          (fun c => evaluate_condition c ctx)
    else rule.conditions.all (fun c => evaluate_condition c ctx)

/-! ## Band matching (`src/models/utils.py`) -/

/-- Does `value` fall in the band's half-open interval `[min, max)`
(missing bounds treated as ±∞)? -/
def bandMatches (b : Band) (value : ℚ) : Bool :=
  (match b.min_value with
   | none => true
   | some m => decide (m ≤ value)) &&
  (match b.max_value with
   | none => true
   | some mx => decide (value < mx))

/-- The band-scanning loop of `find_applicable_band`: first band in
declared order with the requested `band_type` whose interval contains the
value. -/
def findBandLoop (bands : List Band) (value : ℚ) (band_type : String) :
    Option Band :=
  match bands with
  | [] => none
  | b :: rest =>
    if b.band_type = band_type then
      if bandMatches b value then some b else findBandLoop rest value band_type
    else findBandLoop rest value band_type

/-- `find_applicable_band` from `src/models/utils.py`: scan with the
requested tag; when the tag is `"gt"` and nothing matched, retry with
`"standard"` and then `"gt_range"`. (The source returns
`band.model_dump()`; here the band itself is returned.) -/
def find_applicable_band (rule : TariffRule) (value : ℚ)
    (band_type : String) : Option Band :=
  match findBandLoop rule.bands value band_type with
  | some b => some b
  | none =>
    if band_type = "gt" then
      match findBandLoop rule.bands value "standard" with
      | some b => some b
      | none => findBandLoop rule.bands value "gt_range"
    else none

/-! ## Component cost (`src/models/utils.py`) -/

/-- `_get_quantity_for_charging_method` from `src/models/utils.py`:
map the charging method to a context field (`context.get(field, 0.0)`),
1 for flat-fee / per-call methods, 0 otherwise. -/
def get_quantity_for_charging_method (charging_method : ChargingMethod)
    (ctx : Ctx) : Value :=
  let fieldName : Option String :=
    match charging_method with
    | .per_gt => some "gt"
    | .per_m3 => some "volume_m3"
    | .per_ton => some "tonnage"
    | .per_metre_loa => some "loa_metres"
    | .per_passenger => some "passenger_count"
    | .per_teu => some "teu"
    | _ => none
  match fieldName with
  | some f => ctxGetD ctx f (.floatV 0)
  | none =>
    if charging_method = .flat_sek_per_call ∨ charging_method = .per_call
    then .floatV 1
    else .floatV 0

/-- The quantity actually used by `calculate_component_cost`: the explicit
override when given, else the context value per charging method. -/
def resolvedQuantity (rule : TariffRule) (ctx : Ctx) (quantity : Option ℚ) :
    Value :=
  match quantity with
  | some q => .floatV q
  | none => get_quantity_for_charging_method rule.charging_method ctx

/-- Python `max(a, b)` on numbers (kernel-reducible). -/
def pyMax (a b : ℚ) : ℚ := if a < b then b else a

/-- Python `min(a, b)` on numbers (kernel-reducible). -/
def pyMin (a b : ℚ) : ℚ := if b < a then b else a

/-- `calculate_component_cost` from `src/models/utils.py`. A set `rate`
multiplies the quantity (raising `TypeError` if the quantity is not a
number), else a set `flat_fee` is the base, else 0; then the percentage
adjustment and the min/max clamps, each only if set. -/
def calculate_component_cost (rule : TariffRule) (ctx : Ctx)
    (quantity : Option ℚ := none) : Except String ℚ :=
  let pricing := rule.pricing
  let qv := resolvedQuantity rule ctx quantity
  let base : Except String ℚ :=
    match pricing.rate with
    | some rate =>
      match vNum? qv with
      | some q => .ok (rate * q)
      | none => .error "TypeError: unsupported operand type for *"
    | none =>
      match pricing.flat_fee with
      | some fee => .ok fee
      | none => .ok 0
  match base with
  | .error e => .error e
  | .ok cost0 =>
    let cost1 :=
      match pricing.percentage with
      | some p => cost0 * (1 + p / 100)
      | none => cost0
    let cost2 :=
      match pricing.min_charge with
      | some m => pyMax cost1 m
      | none => cost1
    let cost3 :=
      match pricing.max_charge with
      | some mx => pyMin cost2 mx
      | none => cost2
    .ok cost3

/-! ## The orchestrator (`src/core/calculator.py`) -/

/-- One entry of `CalculationResult.breakdown`.  `details` is the Python
details dict; `rule_description` is `rule.description if rule else
component_name` (a present rule may still have a `None` description). -/
structure BreakdownEntry where
  component : String
  cost : ℚ
  rule_description : Option String
  details : List (String × Value)

/-- `CalculationResult` from `src/core/calculator.py`: component map,
running total, breakdown and the parallel list of applied rules (`none`
marks the synthetic ESI-discount entry). -/
structure CalculationResult where
  components : List (String × ℚ)
  total : ℚ
  breakdown : List BreakdownEntry
  applicable_rules : List (Option TariffRule)

/-- The empty `CalculationResult()`. -/
def emptyResult : CalculationResult :=
  { components := [], total := 0, breakdown := [], applicable_rules := [] }

/-- Python dict accumulate-update: add to the (unique) existing key or
append a new one, preserving insertion order. -/
def componentsAdd : List (String × ℚ) → String → ℚ → List (String × ℚ)
  | [], k, c => [(k, c)]
  | (k1, v) :: rest, k, c =>
    if k1 = k then (k1, v + c) :: rest else (k1, v) :: componentsAdd rest k c

/-- Lookup in the component map with a default (`components.get(k, 0)`). -/
def lookupD : List (String × ℚ) → String → ℚ → ℚ
  | [], _, d => d
  | (k1, v) :: rest, k, d => if k1 = k then v else lookupD rest k d

/-- Is the key present in the component map? -/
def hasKey : List (String × ℚ) → String → Bool
  | [], _ => false
  | (k1, _) :: rest, k => k1 == k || hasKey rest k

/-- `CalculationResult.add_component` from `src/core/calculator.py`:
accumulate into `components`, add to `total`, append a breakdown entry and
append the originating rule (possibly `none`) in lockstep. -/
def CalculationResult.add_component (res : CalculationResult)
    (component_name : String) (cost : ℚ) (rule : Option TariffRule)
    (details : List (String × Value)) : CalculationResult :=
  { components := componentsAdd res.components component_name cost
    total := res.total + cost
    breakdown := res.breakdown ++
      [{ component := component_name
         cost := cost
         rule_description :=
           match rule with
           | some r => r.description
           | none => some component_name
         details := details }]
    applicable_rules := res.applicable_rules ++ [rule] }

/-- The structured parameter map consumed by `calculate` (its documented
input contract: every key optional except the vessel type; numeric keys
carry numbers when present). -/
structure Params where
  vessel_type : Option VesselType := none
  gt : Option ℚ := none
  dwt : Option ℚ := none
  volume_m3 : Option ℚ := none
  tonnage : Option ℚ := none
  loa_metres : Option ℚ := none
  passenger_count : Option ℚ := none
  teu : Option ℚ := none
  arrival_origin : Option String := none
  sludge_volume : Option ℚ := none
  calls_per_week : Option ℚ := none
  esi_score : Option ℚ := none
  use_ops : Option Bool := none
  is_inland_waterway : Option Bool := none
  discount_certificate_for_waste : Option Bool := none
  fossil_free_fuel_share : Option ℚ := none

/-- `parameters.get(k, 0)` for the seven defaulted numeric keys: the
Python default `0` is an `int`. -/
def optQ0 : Option ℚ → Value
  | some q => .floatV q
  | none => .intV 0

/-- `parameters.get(k)` for an optional numeric key. -/
def optQN : Option ℚ → Value
  | some q => .floatV q
  | none => .noneV

/-- `parameters.get(k)` for an optional string key. -/
def optSN : Option String → Value
  | some s => .strV s
  | none => .noneV

/-- `parameters.get(k)` for an optional boolean key. -/
def optBN : Option Bool → Value
  | some b => .boolV b
  | none => .noneV

/-- The context dict built by `calculate` (lines 154–171 of
`src/core/calculator.py`): every key is always present, with `None` for
absent un-defaulted parameters. -/
def buildContext (p : Params) : Ctx :=
  [("gt", optQ0 p.gt),
   ("dwt", optQ0 p.dwt),
   ("volume_m3", optQ0 p.volume_m3),
   ("tonnage", optQ0 p.tonnage),
   ("loa_metres", optQ0 p.loa_metres),
   ("passenger_count", optQ0 p.passenger_count),
   ("teu", optQ0 p.teu),
   ("arrival_origin", optSN p.arrival_origin),
   ("arrival_region", optSN p.arrival_origin),
   ("sludge_volume", optQN p.sludge_volume),
   ("calls_per_week", optQN p.calls_per_week),
   ("esi_score", optQN p.esi_score),
   ("use_ops", optBN p.use_ops),
   ("is_inland_waterway", optBN p.is_inland_waterway),
   ("discount_certificate_for_waste", optBN p.discount_certificate_for_waste),
   ("fossil_free_fuel_share", optQN p.fossil_free_fuel_share)]

/-- `rule_priority` from `calculate`: fewer bands for banded infrastructure
dues; condition count (with a +100 penalty for multiple arrival
conditions) for solid waste and sludge; a 999 sentinel otherwise. -/
def rule_priority (rule : TariffRule) : Nat :=
  if rule.component.value = "port_infrastructure_dues" ∧ rule.bands ≠ []
  then rule.bands.length
  else if rule.component.value = "ship_generated_solid_waste" ∨
      rule.component.value = "sludge_oily_bilge_water" then
    let ac := rule.conditions.filter
      (fun c => c.field == "arrival port" || c.field == "arrival_region")
    if 1 < ac.length then 100 + rule.conditions.length
    else rule.conditions.length
  else 999

/-- Stable insertion of a rule before the first rule of priority ≥ its
own (used right-to-left this reproduces Python's stable `sorted`). -/
def insertByPriority (r : TariffRule) : List TariffRule → List TariffRule
  | [] => [r]
  | x :: xs =>
    if rule_priority x < rule_priority r then x :: insertByPriority r xs
    else r :: x :: xs

/-- Python's stable `sorted(rules, key=rule_priority)`. -/
def sortRules (rules : List TariffRule) : List TariffRule :=
  rules.foldr insertByPriority []

/-- Loop state of `calculate`: the accumulating result and the
`applied_components` set (modelled as a duplicate-free list). -/
structure CalcState where
  result : CalculationResult
  applied : List String

/-- `set.add`: append the string unless already present. -/
def appliedAdd (l : List String) (s : String) : List String :=
  if s ∈ l then l else l ++ [s]

/-- The `exclusive_components` list of `calculate`. -/
def exclusiveComponents : List String := ["port_infrastructure_dues"]

/-- `rule.pricing.rate and rule.pricing.rate > 0` (Python truthiness:
`None` and `0.0` are falsy). -/
def rateTruthyPos (rule : TariffRule) : Bool :=
  match rule.pricing.rate with
  | some r => decide (0 < r)
  | none => false

/-- The `has_exceeding_condition` test of `calculate` (lines 265–270):
textual detection of a "more than ... 11" condition on the sludge
quantity. -/
def hasExceedingCondition (rule : TariffRule) : Bool :=
  rule.conditions.any (fun c =>
    (c.field == "quantity" || c.field == "sludge_volume") &&
      sSub "more than" c.operator.toLower &&
      sSub "11" (pyStr c.value))

/-- The details dict recorded for a rule-based breakdown entry
(lines 280–288): method, rate, currency, the band range when a band
matched, and the percentage when truthy. -/
def ruleDetails (rule : TariffRule) (band : Option Band) :
    List (String × Value) :=
  [("charging_method", .strV rule.charging_method.value),
   ("rate", optQN rule.pricing.rate),
   ("currency", .strV rule.pricing.currency)] ++
  (match band with
   | some b =>
     [("band", .strV (pyStr (optQN b.min_value) ++ "-" ++
        pyStr (optQN b.max_value)))]
   | none => []) ++
  (match rule.pricing.percentage with
   | some p => if p ≠ 0 then [("percentage", .floatV p)] else []
   | none => [])

/-- The banding step of the `calculate` loop body (lines 223–241 of
`src/core/calculator.py`): `.ok none` means "skip this rule" (no matching
band, or a multi-band infrastructure rule whose component was already
applied), `.ok (some none)` means "no bands on this rule", and
`.ok (some (some b))` is a matched band.  The band value comes from the
context: volume (with a dead tonnage fallback, the key being always
present) for per-volume/per-ton methods, else gross tonnage. -/
def bandStep (ctx : Ctx) (applied : List String) (rule : TariffRule) :
    Except String (Option (Option Band)) :=
  if rule.bands.isEmpty then .ok (some none)
  else
    let bandValueV :=
      if rule.charging_method.value = "per_m3" ∨
          rule.charging_method.value = "per_ton"
      then ctxGetD ctx "volume_m3" (ctxGetD ctx "tonnage" (.intV 0))
      else ctxGetD ctx "gt" (.intV 0)
    match vNum? bandValueV with
    | none => .error "TypeError: unsupported comparison in band matching"
    | some bv =>
      let band :=
        match find_applicable_band rule bv "standard" with
        | some b => some b
        | none => find_applicable_band rule bv "gt_range"
      match band with
      | none => .ok none
      | some b =>
        if rule.component.value = "port_infrastructure_dues" ∧
            1 < rule.bands.length ∧ rule.component.value ∈ applied
        then .ok none
        else .ok (some (some b))

/-- The component-marking step of the `calculate` loop body
(lines 244–258): add the component to `applied_components` under the
per-component policies. -/
def markApplied (rule : TariffRule) (applied : List String)
    (band : Option Band) : List String :=
  if rule.component.value ∈ exclusiveComponents then
    if rule.component.value = "port_infrastructure_dues" then
      if band.isSome ∨ rule.bands.isEmpty
      then appliedAdd applied rule.component.value
      else applied
    else appliedAdd applied rule.component.value
  else if rule.component.value = "ship_generated_solid_waste" ∧
      rule.charging_method.value = "per_gt" ∧ rateTruthyPos rule
  then appliedAdd applied rule.component.value
  else if rule.component.value = "sludge_oily_bilge_water" ∧
      rule.charging_method.value = "per_gt"
  then appliedAdd applied rule.component.value
  else applied

/-- The excess-sludge override step of the `calculate` loop body
(lines 260–273): for a per-volume sludge rule the stored sludge volume is
compared against 11 (raising a `TypeError` when it is `None`); above the
threshold, a rule textually conditioned on "more than ... 11" has its
billed quantity overridden to the excess volume. -/
def sludgeOverride (ctx : Ctx) (rule : TariffRule) :
    Except String (Option ℚ) :=
  if rule.component.value = "sludge_oily_bilge_water" ∧
      rule.charging_method.value = "per_m3" then
    match vNum? (ctxGetD ctx "sludge_volume" (.intV 0)) with
    | none => .error
        "TypeError: unsupported comparison between NoneType and int"
    | some sv =>
      if 11 < sv then
        if hasExceedingCondition rule then .ok (some (sv - 11))
        else .ok none
      else .ok none
  else .ok none

/-- The loop body of `calculate` (lines 197–295 of
`src/core/calculator.py`), processing a single rule.  `Except.error`
models an uncaught Python `TypeError` (comparing the stored
`sludge_volume` value `None` against the number 11). -/
def processRule (ctx : Ctx) (st : CalcState) (rule : TariffRule) :
    Except String CalcState :=
  if !check_rule_applicable rule ctx then .ok st
  else if rule.component.value = "ship_generated_solid_waste" ∧
      rule.charging_method.value = "per_gt" ∧ rateTruthyPos rule ∧
      "ship_generated_solid_waste" ∈ st.applied then .ok st
  else if rule.component.value = "sludge_oily_bilge_water" ∧
      rule.charging_method.value = "per_gt" ∧
      rule.component.value ∈ st.applied then .ok st
  else if rule.component.value ∈ exclusiveComponents ∧
      rule.component.value ∈ st.applied then .ok st
  else
    match bandStep ctx st.applied rule with
    | .error e => .error e
    | .ok none => .ok st
    | .ok (some band) =>
      if rule.component.value ∈ exclusiveComponents ∧
          rule.component.value = "port_infrastructure_dues" ∧
          rule.component.value ∈ st.applied then .ok st
      else
        match sludgeOverride ctx rule with
        | .error e => .error e
        | .ok qov =>
          match calculate_component_cost rule ctx qov with
          | .error e => .error e
          | .ok cost =>
            if cost ≠ 0 then
              .ok { result := st.result.add_component rule.component.value
                      cost (some rule) (ruleDetails rule band)
                    applied := markApplied rule st.applied band }
            else .ok { result := st.result
                       applied := markApplied rule st.applied band }


/-- The rule loop of `calculate`, folded over the sorted rules. -/
def processRules (ctx : Ctx) : List TariffRule → CalcState →
    Except String CalcState
  | [], st => .ok st
  | r :: rs, st =>
    match processRule ctx st r with
    | .error e => .error e
    | .ok st1 => processRules ctx rs st1

/-- The details dict of the synthetic ESI-discount entry. -/
def esiDetails : List (String × Value) :=
  [("type", .strV "ESI_discount"),
   ("percentage", .intV (-10)),
   ("applied_to", .strV "port_infrastructure_dues")]

/-- The automatic environmental-discount step of `calculate`
(lines 297–312): when the ESI score is present and ≥ 30 and the
accumulated infrastructure dues are positive, append a synthetic
`environmental_discounts` component worth −10 % of those dues. -/
def esiStep (ctx : Ctx) (res : CalculationResult) :
    Except String CalculationResult :=
  let esi := ctxGetD ctx "esi_score" (.intV 0)
  if isNoneV esi then .ok res
  else
    match vNum? esi with
    | none => .error "TypeError: unsupported comparison"
    | some e =>
      if 30 ≤ e then
        let port_dues_cost :=
          lookupD res.components "port_infrastructure_dues" 0
        if 0 < port_dues_cost then
          .ok (res.add_component "environmental_discounts"
            (port_dues_cost * (-1 / 10)) none esiDetails)
        else .ok res
      else .ok res

/-- `TariffCalculator.calculate` from `src/core/calculator.py`:
empty result without a vessel type; otherwise filter the database by the
vessel type, build the context, process the priority-sorted rules and
apply the automatic environmental discount.  `Except.error` models an
uncaught Python `TypeError`. -/
def calculate (p : Params) (db : TariffDatabase) :
    Except String CalculationResult :=
  match p.vessel_type with
  | none => .ok emptyResult
  | some vt =>
    let ctx := buildContext p
    let sorted := sortRules (db.get_rules (some vt) none)
    match processRules ctx sorted { result := emptyResult, applied := [] } with
    | .error e => .error e
    | .ok st => esiStep ctx st.result

/-! ## Specification-side definitions

The following definitions are written from the wording of the
specification claims (not from the source); the theorems below compare
them with the source-derived definitions above. -/

/-- From the spec: a value matches a band iff `min ≤ value < max`, a
missing minimum meaning −∞ and a missing maximum meaning +∞. -/
def specBandContains (b : Band) (value : ℚ) : Bool :=
  (match b.min_value with
   | none => true
   | some m => decide (m ≤ value)) &&
  (match b.max_value with
   | none => true
   | some mx => decide (value < mx))

/-- From the spec (C8): scan the bands in declared order keeping only the
requested tag, return the first containing band; when the requested tag is
the canonical tonnage tag `"gt"` and nothing matched, retry with the two
legacy tags `"standard"` then `"gt_range"`; otherwise null. -/
def specFindBand (rule : TariffRule) (value : ℚ) (tag : String) :
    Option Band :=
  let scan := fun (t : String) =>
    rule.bands.find? (fun b => b.band_type == t && specBandContains b value)
  match scan tag with
  | some b => some b
  | none =>
    if tag = "gt" then
      match scan "standard" with
      | some b => some b
      | none => scan "gt_range"
    else none

/-- The spec's interval test coincides with the code's. -/
theorem specBandContains_eq_bandMatches : specBandContains = bandMatches :=
  rfl

/-- The code's band-scanning loop is the first-match search of the spec. -/
theorem findBandLoop_eq_find (bands : List Band) (v : ℚ) (t : String) :
    findBandLoop bands v t =
      bands.find? (fun b => b.band_type == t && bandMatches b v) := by
  induction bands with
  | nil => rfl
  | cons b rest ih =>
    by_cases h1 : b.band_type = t
    · by_cases h2 : bandMatches b v = true
      · rw [List.find?_cons_of_pos]
        · simp [findBandLoop, h1, h2]
        · simp [h1, h2]
      · rw [List.find?_cons_of_neg]
        · simp [findBandLoop, h1, h2, ih]
        · simp [h1, h2]
    · rw [List.find?_cons_of_neg]
      · simp [findBandLoop, h1, ih]
      · simp [h1]

/-- C8: `find_applicable_band` scans bands in declared order among those
with the requested tag, returns the first whose half-open interval
contains the value, retries with `"standard"` then `"gt_range"` when the
requested tag is `"gt"`, and returns null otherwise. -/
theorem C8_find_applicable_band_spec (rule : TariffRule) (value : ℚ)
    (band_type : String) :
    find_applicable_band rule value band_type =
      specFindBand rule value band_type := by
  unfold find_applicable_band specFindBand
  simp only [findBandLoop_eq_find, specBandContains_eq_bandMatches]

/-- From the spec (C7): quantity resolution — the override if given, else
the context field mapped from the charging method, else 1 for
flat-fee/per-call methods, else 0. -/
def specQuantityValue (rule : TariffRule) (ctx : Ctx)
    (quantity : Option ℚ) : Value :=
  match quantity with
  | some q => .floatV q
  | none =>
    match rule.charging_method with
    | .per_gt => ctxGetD ctx "gt" (.floatV 0)
    | .per_m3 => ctxGetD ctx "volume_m3" (.floatV 0)
    | .per_ton => ctxGetD ctx "tonnage" (.floatV 0)
    | .per_metre_loa => ctxGetD ctx "loa_metres" (.floatV 0)
    | .per_passenger => ctxGetD ctx "passenger_count" (.floatV 0)
    | .per_teu => ctxGetD ctx "teu" (.floatV 0)
    | .flat_sek_per_call => .floatV 1
    | .per_call => .floatV 1
    | _ => .floatV 0

/-- From the spec (C7): base amount `rate * quantity` if the rate is set,
else the flat fee if set, else 0. -/
def specBase (pr : PricingRule) (q : ℚ) : ℚ :=
  match pr.rate with
  | some r => r * q
  | none =>
    match pr.flat_fee with
    | some f => f
    | none => 0

/-- From the spec (C7): multiply by `(1 + percentage / 100)` if set. -/
def specPct (pr : PricingRule) (x : ℚ) : ℚ :=
  match pr.percentage with
  | some p => x * (1 + p / 100)
  | none => x

/-- From the spec (C7): clamp below by `min_charge` first, if set. -/
def specClampMin (pr : PricingRule) (x : ℚ) : ℚ :=
  match pr.min_charge with
  | some m => pyMax x m
  | none => x

/-- From the spec (C7): clamp above by `max_charge` second, if set. -/
def specClampMax (pr : PricingRule) (x : ℚ) : ℚ :=
  match pr.max_charge with
  | some m => pyMin x m
  | none => x

/-- From the spec (C7): the full cost formula. -/
def specCost (pr : PricingRule) (q : ℚ) : ℚ :=
  specClampMax pr (specClampMin pr (specPct pr (specBase pr q)))

/-- C7: for every rule, context and optional quantity override whose
resolved quantity is a number `qn`, `calculate_component_cost` returns the
spec's formula — base `rate * qn` if the rate is set else the flat fee
else 0, then the percentage adjustment, then the min-charge clamp followed
by the max-charge clamp — and the resolved quantity is the override if
given, else the context field mapped from the charging method, else 1 for
flat-fee/per-call methods, else 0. -/
theorem C7_component_cost_spec (rule : TariffRule) (ctx : Ctx)
    (quantity : Option ℚ) (qn : ℚ)
    (hq : vNum? (resolvedQuantity rule ctx quantity) = some qn) :
    calculate_component_cost rule ctx quantity = .ok (specCost rule.pricing qn)
    ∧ resolvedQuantity rule ctx quantity = specQuantityValue rule ctx quantity
    := by
  constructor
  · unfold calculate_component_cost specCost specClampMax specClampMin
      specPct specBase
    cases hr : rule.pricing.rate with
    | some r => simp [hr, hq]
    | none => cases hf : rule.pricing.flat_fee <;> simp [hr, hf]
  · unfold resolvedQuantity specQuantityValue get_quantity_for_charging_method
    cases quantity with
    | some q => rfl
    | none => cases hm : rule.charging_method <;> simp

/-- Witness for C7 at a concrete input: a per-GT rule with rate 2 and
minimum charge 50 on a context with gross tonnage 5 yields
`max (2*5) 50 = 50`. -/
theorem C7_witness :
    calculate_component_cost
        { vessel_type := .tankers, component := .port_infrastructure_dues,
          charging_method := .per_gt,
          pricing := { rate := some 2, min_charge := some 50 } }
        [("gt", .floatV 5)] none = .ok 50
    ∧ resolvedQuantity
        { vessel_type := .tankers, component := .port_infrastructure_dues,
          charging_method := .per_gt,
          pricing := { rate := some 2, min_charge := some 50 } }
        [("gt", .floatV 5)] none =
      specQuantityValue
        { vessel_type := .tankers, component := .port_infrastructure_dues,
          charging_method := .per_gt,
          pricing := { rate := some 2, min_charge := some 50 } }
        [("gt", .floatV 5)] none := by
  have h := C7_component_cost_spec
    { vessel_type := .tankers, component := .port_infrastructure_dues,
      charging_method := .per_gt,
      pricing := { rate := some 2, min_charge := some 50 } }
    [("gt", .floatV 5)] none 5 (by rfl)
  refine ⟨?_, h.2⟩
  rw [h.1]
  congr 1
  with_unfolding_all decide

/-- From the wording of claim C5: an "equality-class condition (operators
eq, =, ==, equals, from, must) on an arrival/region-type field". -/
def claimArrivalEqCond (c : Condition) : Bool :=
  (c.field == "arrival port" || c.field == "arrival_region") &&
    eqOps.contains c.operator.toLower

/-- Rule applicability as claim C5 states it: no conditions ⇒ true; more
than one equality-class condition (with the six-operator equality class)
on an arrival field ⇒ OR those, AND the rest; otherwise AND all. -/
def claimApplicable (rule : TariffRule) (ctx : Ctx) : Bool :=
  if rule.conditions.isEmpty then true
  else
    let special := rule.conditions.filter claimArrivalEqCond
    if 1 < special.length then
      special.any (fun c => evaluate_condition c ctx) &&
        (rule.conditions.filter (fun c => !claimArrivalEqCond c)).all
          (fun c => evaluate_condition c ctx)
    else rule.conditions.all (fun c => evaluate_condition c ctx)

/-- A rule carrying two contradictory `"equals"` arrival conditions:
`check_rule_applicable` does not group them (its special set is only
`["from", "eq", "="]`), while the claim's six-operator grouping would. -/
def c5rule : TariffRule :=
  { vessel_type := .tankers
    component := .fresh_water
    charging_method := .flat_sek_per_call
    conditions :=
      [{ field := "arrival_region", operator := "equals", value := .strV "EU" },
       { field := "arrival_region", operator := "equals",
         value := .strV "non-EU" }]
    pricing := { flat_fee := some 100 } }

/-- Context of an EU arrival. -/
def c5ctx : Ctx :=
  buildContext { vessel_type := some .tankers, arrival_origin := some "EU" }

/-- C5 counterexample: on a rule with two `"equals"` arrival conditions
(EU and non-EU) and an EU context, the code ANDs the contradictory
conditions and rejects the rule, while the claim's OR-grouping (whose
equality class includes `equals`) would accept it. -/
theorem C5_counterexample :
    check_rule_applicable c5rule c5ctx = false ∧
      claimApplicable c5rule c5ctx = true := by
  with_unfolding_all decide

/-- Rule applicability as amended: the OR-grouping applies only to
arrival-field conditions whose lowercased operator is `from`, `eq` or `=`
(not the full six-operator equality class). -/
def specApplicableAmended (rule : TariffRule) (ctx : Ctx) : Bool :=
  if rule.conditions.isEmpty then true
  else if 1 < rule.conditions.countP isArrivalEqCond then
    rule.conditions.any
        (fun c => isArrivalEqCond c && evaluate_condition c ctx) &&
      rule.conditions.all
        (fun c => isArrivalEqCond c || evaluate_condition c ctx)
  else rule.conditions.all (fun c => evaluate_condition c ctx)

/-- `any` over a filtered list. -/
theorem any_filter_eq {α : Type} (p q : α → Bool) (l : List α) :
    (l.filter p).any q = l.any (fun a => p a && q a) := by
  induction l with
  | nil => rfl
  | cons a l ih =>
    by_cases h : p a = true
    · simp [List.filter_cons, h, List.any_cons, ih]
    · have h2 : p a = false := by simpa using h
      simp [List.filter_cons, h2, List.any_cons, ih]

/-- `all` over the complement-filtered list. -/
theorem all_filter_not_eq {α : Type} (p q : α → Bool) (l : List α) :
    (l.filter (fun a => !p a)).all q = l.all (fun a => p a || q a) := by
  induction l with
  | nil => rfl
  | cons a l ih =>
    by_cases h : p a = true
    · simp [List.filter_cons, h, List.all_cons, ih]
    · have h2 : p a = false := by simpa using h
      simp [List.filter_cons, h2, List.all_cons, ih]

/-- C5 as amended: `check_rule_applicable` returns true for a
condition-free rule; when the rule carries more than one arrival-field
condition with lowercased operator `from`, `eq` or `=`, those conditions
are OR-combined and all remaining conditions are AND-combined against
that OR; otherwise it is the AND of `evaluate_condition` over all
conditions. -/
theorem C5_applicability_amended (rule : TariffRule) (ctx : Ctx) :
    check_rule_applicable rule ctx = specApplicableAmended rule ctx := by
  unfold check_rule_applicable specApplicableAmended
  rw [List.countP_eq_length_filter]
  by_cases he : rule.conditions.isEmpty
  · simp [he]
  · have he2 : rule.conditions.isEmpty = false := by simpa using he
    simp only [he2, Bool.false_eq_true, if_false]
    by_cases hl : 1 < (rule.conditions.filter isArrivalEqCond).length
    · simp only [hl, if_true]
      rw [any_filter_eq, all_filter_not_eq]
    · simp only [hl, if_false]

/-- Classify a (lowercased) operator as one of the ordering operators. -/
def ordOpClass (op : String) : Option OrdOp :=
  if op ∈ gtOps then some .gtc
  else if op ∈ gteOps then some .gec
  else if op ∈ ltOps then some .ltc
  else if op ∈ lteOps then some .lec
  else none

/-- Numeric semantics of an ordering operator (field on the left). -/
def ordNumSem (o : OrdOp) (a b : ℚ) : Bool :=
  match o with
  | .gtc => decide (b < a)
  | .gec => decide (b ≤ a)
  | .ltc => decide (a < b)
  | .lec => decide (a ≤ b)

/-- Case-sensitive string semantics of an ordering operator. -/
def ordStrSem (o : OrdOp) (s t : String) : Bool :=
  match o with
  | .gtc => pyStrLt t s
  | .gec => !pyStrLt s t
  | .ltc => pyStrLt s t
  | .lec => !pyStrLt t s

/-- Ordering comparison as claim C6 states it: numeric when both sides
parse, otherwise **case-insensitive** string comparison. -/
def claimOrderingEval (o : OrdOp) (fv tv : Value) : Bool :=
  let fv2 := pyTryNum fv
  let tv2 := pyTryNum tv
  match vNum? fv2, vNum? tv2 with
  | some a, some b => ordNumSem o a b
  | _, _ => ordStrSem o ((pyStr fv2).toLower) ((pyStr tv2).toLower)

/-- C6 counterexample: for the condition `x gt "Apple"` on the context
`{x: "apple"}` neither side parses as a number; the code compares the
`str` renderings case-sensitively (`"apple" > "Apple"` is true since
lowercase code points exceed uppercase ones), while the claim's
case-insensitive fallback would compare equal strings and return false. -/
theorem C6_counterexample :
    evaluate_condition
        { field := "x", operator := "gt", value := .strV "Apple" }
        [("x", .strV "apple")] = true ∧
      claimOrderingEval .gtc (.strV "apple") (.strV "Apple") = false := by
  with_unfolding_all decide

/-- The ordering-operator spellings overlap with no equality or
inequality spelling. -/
theorem gtOps_disjoint : ∀ x ∈ gtOps, x ∉ eqOps ∧ x ∉ neOps := by decide

/-- Greater-or-equal spellings avoid the equality and inequality sets. -/
theorem gteOps_disjoint : ∀ x ∈ gteOps, x ∉ eqOps ∧ x ∉ neOps := by decide

/-- Strictly-less spellings avoid the equality and inequality sets. -/
theorem ltOps_disjoint : ∀ x ∈ ltOps, x ∉ eqOps ∧ x ∉ neOps := by decide

/-- Less-or-equal spellings avoid the equality and inequality sets. -/
theorem lteOps_disjoint : ∀ x ∈ lteOps, x ∉ eqOps ∧ x ∉ neOps := by decide

/-- C6 as amended: for a condition with an ordering operator and a found
field value, `evaluate_condition` is the coercing comparison `ordCmp`;
when both coerced sides are numbers the comparison is numeric, and when
either side fails to parse both are rendered with `str` and compared
**case-sensitively**. -/
theorem C6_ordering_amended (c : Condition) (ctx : Ctx) (o : OrdOp)
    (hop : ordOpClass c.operator.toLower = some o)
    (hfv : isNoneV (resolveField c ctx) = false) :
    evaluate_condition c ctx = ordCmp o (resolveField c ctx) c.value
    ∧ (∀ a b, vNum? (pyTryNum (resolveField c ctx)) = some a →
        vNum? (pyTryNum c.value) = some b →
        ordCmp o (resolveField c ctx) c.value = ordNumSem o a b)
    ∧ ((vNum? (pyTryNum (resolveField c ctx)) = none ∨
        vNum? (pyTryNum c.value) = none) →
        ordCmp o (resolveField c ctx) c.value =
          ordStrSem o (pyStr (pyTryNum (resolveField c ctx)))
            (pyStr (pyTryNum c.value))) := by
  refine ⟨?_, ?_, ?_⟩
  · unfold evaluate_condition
    unfold ordOpClass at hop
    by_cases h1 : c.operator.toLower ∈ gtOps
    · simp only [h1, if_true, Option.some.injEq] at hop
      subst hop
      have e1 : c.operator.toLower ∉ eqOps := (gtOps_disjoint _ h1).1
      have e2 : c.operator.toLower ∉ neOps := (gtOps_disjoint _ h1).2
      simp [hfv, e1, e2, h1]
    · simp only [h1, if_false] at hop
      by_cases h2 : c.operator.toLower ∈ gteOps
      · simp only [h2, if_true, Option.some.injEq] at hop
        subst hop
        have e1 : c.operator.toLower ∉ eqOps := (gteOps_disjoint _ h2).1
        have e2 : c.operator.toLower ∉ neOps := (gteOps_disjoint _ h2).2
        simp [hfv, e1, e2, h1, h2]
      · simp only [h2, if_false] at hop
        by_cases h3 : c.operator.toLower ∈ ltOps
        · simp only [h3, if_true, Option.some.injEq] at hop
          subst hop
          have e1 : c.operator.toLower ∉ eqOps := (ltOps_disjoint _ h3).1
          have e2 : c.operator.toLower ∉ neOps := (ltOps_disjoint _ h3).2
          simp [hfv, e1, e2, h1, h2, h3]
        · simp only [h3, if_false] at hop
          by_cases h4 : c.operator.toLower ∈ lteOps
          · simp only [h4, if_true, Option.some.injEq] at hop
            subst hop
            have e1 : c.operator.toLower ∉ eqOps := (lteOps_disjoint _ h4).1
            have e2 : c.operator.toLower ∉ neOps := (lteOps_disjoint _ h4).2
            simp [hfv, e1, e2, h1, h2, h3, h4]
          · simp only [h4, if_false] at hop
            exact absurd hop (by simp)
  · intro a b ha hb
    unfold ordCmp
    simp only [ha, hb]
    cases o <;> rfl
  · intro h
    unfold ordCmp
    rcases h with h | h
    · simp only [h]
      cases o <;> rfl
    · cases hx : vNum? (pyTryNum (resolveField c ctx)) <;>
        simp only [h, hx] <;> cases o <;> rfl

/-- Witness condition for the amended C6: operator `at least`. -/
def c6wCond : Condition :=
  { field := "x", operator := "at least", value := .strV "5 kg" }

/-- Witness context for the amended C6. -/
def c6wCtx : Ctx := [("x", .floatV 7)]

/-- Witness for the amended C6 at a concrete ordering condition. -/
theorem C6_ordering_amended_witness :
    evaluate_condition c6wCond c6wCtx =
      ordCmp .gec (resolveField c6wCond c6wCtx) c6wCond.value :=
  (C6_ordering_amended c6wCond c6wCtx .gec (by with_unfolding_all rfl)
    (by with_unfolding_all rfl)).1

/-! ## Accounting invariants of the calculation loop -/

/-- Sum of the component-map values grows by the added cost. -/
theorem componentsAdd_sum (cs : List (String × ℚ)) (k : String) (c : ℚ) :
    ((componentsAdd cs k c).map (fun p => p.2)).sum =
      (cs.map (fun p => p.2)).sum + c := by
  induction cs with
  | nil => simp [componentsAdd]
  | cons p rest ih =>
    obtain ⟨k1, v⟩ := p
    by_cases h : k1 = k
    · simp only [componentsAdd, h, if_pos]
      simp [add_assoc, add_comm]
    · simp only [componentsAdd, h, if_neg, not_false_iff, List.map_cons,
        List.sum_cons, ih]
      ring

/-- Accumulating under one key leaves lookups of other keys unchanged. -/
theorem lookupD_componentsAdd_ne (cs : List (String × ℚ)) (k k2 : String)
    (c d : ℚ) (h : k2 ≠ k) :
    lookupD (componentsAdd cs k c) k2 d = lookupD cs k2 d := by
  induction cs with
  | nil => simp [componentsAdd, lookupD, Ne.symm h]
  | cons p rest ih =>
    obtain ⟨k1, v⟩ := p
    by_cases h1 : k1 = k
    · subst h1
      simp [componentsAdd, lookupD, Ne.symm h]
    · by_cases h2 : k1 = k2
      · simp [componentsAdd, lookupD, h1, h2, h]
      · simp [componentsAdd, lookupD, h1, h2, ih]

/-- Accumulating under a key makes it present. -/
theorem hasKey_componentsAdd (cs : List (String × ℚ)) (k : String) (c : ℚ) :
    hasKey (componentsAdd cs k c) k = true := by
  induction cs with
  | nil => simp [componentsAdd, hasKey]
  | cons p rest ih =>
    obtain ⟨k1, v⟩ := p
    by_cases h : k1 = k
    · simp [componentsAdd, h, hasKey]
    · simp [componentsAdd, h, hasKey, ih]

/-- The added string is in the set afterwards. -/
theorem mem_appliedAdd_self (l : List String) (s : String) :
    s ∈ appliedAdd l s := by
  unfold appliedAdd
  by_cases h : s ∈ l
  · simp only [if_pos h]
    exact h
  · simp [h]

/-- Membership is preserved by `appliedAdd`. -/
theorem mem_appliedAdd_of_mem (l : List String) (s a : String)
    (h : a ∈ l) : a ∈ appliedAdd l s := by
  unfold appliedAdd
  split
  · exact h
  · exact List.mem_append_left _ h

/-- Membership is preserved by `markApplied`. -/
theorem mem_markApplied_of_mem (rule : TariffRule) (applied : List String)
    (band : Option Band) (a : String) (h : a ∈ applied) :
    a ∈ markApplied rule applied band := by
  unfold markApplied
  split_ifs <;> first
    | exact h
    | exact mem_appliedAdd_of_mem _ _ _ h

/-- Absence after `markApplied` implies absence before. -/
theorem not_mem_markApplied (rule : TariffRule) (applied : List String)
    (band : Option Band) (a : String)
    (h : a ∉ markApplied rule applied band) : a ∉ applied :=
  fun hm => h (mem_markApplied_of_mem rule applied band a hm)

/-- Marking an infrastructure-dues rule with a matched band (or no bands)
records the component. -/
theorem mem_markApplied_infra (rule : TariffRule) (applied : List String)
    (band : Option Band)
    (hc : rule.component.value = "port_infrastructure_dues")
    (hb : band.isSome = true ∨ rule.bands.isEmpty = true) :
    "port_infrastructure_dues" ∈ markApplied rule applied band := by
  have hmem : rule.component.value ∈ exclusiveComponents := by
    rw [hc]; simp [exclusiveComponents]
  unfold markApplied
  rw [if_pos hmem, if_pos hc, if_pos hb]
  rw [← hc]
  exact mem_appliedAdd_self _ _

/-- A successful band scan returns a member band of the requested type. -/
theorem findBandLoop_some (bands : List Band) (v : ℚ) (t : String)
    (b : Band) (h : findBandLoop bands v t = some b) :
    b ∈ bands ∧ b.band_type = t := by
  induction bands with
  | nil => simp [findBandLoop] at h
  | cons x rest ih =>
    unfold findBandLoop at h
    by_cases h1 : x.band_type = t
    · rw [if_pos h1] at h
      by_cases h2 : bandMatches x v = true
      · rw [if_pos h2] at h
        cases h
        exact ⟨List.mem_cons_self _ _, h1⟩
      · rw [if_neg h2] at h
        obtain ⟨hm, ht⟩ := ih h
        exact ⟨List.mem_cons_of_mem _ hm, ht⟩
    · rw [if_neg h1] at h
      obtain ⟨hm, ht⟩ := ih h
      exact ⟨List.mem_cons_of_mem _ hm, ht⟩

/-- For a non-`"gt"` tag, a found band is a member with exactly that
tag (the legacy fallback does not fire). -/
theorem find_applicable_band_mem (rule : TariffRule) (v : ℚ) (t : String)
    (b : Band) (ht : t ≠ "gt") (h : find_applicable_band rule v t = some b) :
    b ∈ rule.bands ∧ b.band_type = t := by
  unfold find_applicable_band at h
  cases hf : findBandLoop rule.bands v t with
  | some b2 =>
    rw [hf] at h
    cases h
    exact findBandLoop_some _ _ _ _ hf
  | none =>
    rw [hf, if_neg ht] at h
    cases h

/-- Shape of a successful banding step: either the rule is bandless, or a
band of type `"standard"` or `"gt_range"` was found among its bands. -/
theorem bandStep_ok_some (ctx : Ctx) (applied : List String)
    (rule : TariffRule) (bd : Option Band)
    (h : bandStep ctx applied rule = .ok (some bd)) :
    (rule.bands.isEmpty = true ∧ bd = none) ∨
      ∃ b, bd = some b ∧ b ∈ rule.bands ∧
        (b.band_type = "standard" ∨ b.band_type = "gt_range") := by
  unfold bandStep at h
  by_cases he : rule.bands.isEmpty = true
  · rw [if_pos he] at h
    simp only [Except.ok.injEq, Option.some.injEq] at h
    exact .inl ⟨he, h.symm⟩
  · rw [if_neg he] at h
    simp only [] at h
    rcases hv : vNum? (if rule.charging_method.value = "per_m3" ∨
        rule.charging_method.value = "per_ton" then
        ctxGetD ctx "volume_m3" (ctxGetD ctx "tonnage" (.intV 0))
      else ctxGetD ctx "gt" (.intV 0)) with _ | bv
    · rw [hv] at h
      simp at h
    · rw [hv] at h
      simp only [] at h
      rcases hband : (match find_applicable_band rule bv "standard" with
        | some b => some b
        | none => find_applicable_band rule bv "gt_range") with _ | b
      · rw [hband] at h
        simp at h
      · rw [hband] at h
        simp only [] at h
        split at h
        · simp at h
        · simp only [Except.ok.injEq, Option.some.injEq] at h
          subst h
          refine .inr ⟨b, rfl, ?_⟩
          rcases hfind : find_applicable_band rule bv "standard" with _ | b2
          · rw [hfind] at hband
            obtain ⟨hm, ht⟩ := find_applicable_band_mem rule bv "gt_range" b
              (by decide) hband
            exact ⟨hm, .inr ht⟩
          · rw [hfind] at hband
            cases hband
            obtain ⟨hm, ht⟩ := find_applicable_band_mem rule bv "standard" b
              (by decide) hfind
            exact ⟨hm, .inl ht⟩

/-- Number of infrastructure-dues entries in a breakdown. -/
def infraCount (bs : List BreakdownEntry) : Nat :=
  bs.countP (fun e => e.component == "port_infrastructure_dues")

/-- The invariant maintained by the rule loop of `calculate`: the
accounting identities of the accumulator, the absence of null markers,
the at-most-one infrastructure-dues entry (with its coupling to the
`applied_components` set), and the band-type obligation on every applied
rule. -/
structure LoopInv (st : CalcState) : Prop where
  total_eq : st.result.total = (st.result.breakdown.map (fun e => e.cost)).sum
  comp_eq : (st.result.components.map (fun p => p.2)).sum =
    (st.result.breakdown.map (fun e => e.cost)).sum
  len_eq : st.result.breakdown.length = st.result.applicable_rules.length
  rules_some : ∀ x ∈ st.result.applicable_rules, x ≠ none
  infra_le : infraCount st.result.breakdown ≤ 1
  infra_unapplied : "port_infrastructure_dues" ∉ st.applied →
    infraCount st.result.breakdown = 0
  applied_ok : ∀ x ∈ st.result.applicable_rules, ∀ r, x = some r →
    (r.bands = [] ∨ ∃ b ∈ r.bands, b.band_type ≠ "gt")

/-- Appending one entry adds its indicator to the infrastructure count. -/
theorem infraCount_append (bs : List BreakdownEntry) (e : BreakdownEntry) :
    infraCount (bs ++ [e]) = infraCount bs +
      (if e.component == "port_infrastructure_dues" then 1 else 0) := by
  unfold infraCount
  rw [List.countP_append]
  simp [List.countP_cons]

/-- The invariant is preserved when a rule records a component: the cost
is appended in lockstep, the infrastructure count stays below one (an
infrastructure rule can only get here while unapplied, and marks itself),
and the recorded rule passed the banding step. -/
theorem LoopInv.add (ctx : Ctx) (st : CalcState) (hinv : LoopInv st)
    (rule : TariffRule) (bd : Option Band) (cost : ℚ)
    (details : List (String × Value))
    (hnotskip : ¬(rule.component.value ∈ exclusiveComponents ∧
      rule.component.value ∈ st.applied))
    (hbs : bandStep ctx st.applied rule = .ok (some bd)) :
    LoopInv { result := st.result.add_component rule.component.value cost
                (some rule) details
              applied := markApplied rule st.applied bd } := by
  have hshape := bandStep_ok_some ctx st.applied rule bd hbs
  constructor
  · simp [CalculationResult.add_component, hinv.total_eq]
  · simp [CalculationResult.add_component, componentsAdd_sum, hinv.comp_eq]
  · simp [CalculationResult.add_component, hinv.len_eq]
  · intro x hx
    simp only [CalculationResult.add_component, List.mem_append,
      List.mem_singleton] at hx
    rcases hx with hx | hx
    · exact hinv.rules_some x hx
    · subst hx
      simp
  · by_cases hic : rule.component.value = "port_infrastructure_dues"
    · have hmemx : rule.component.value ∈ exclusiveComponents := by
        rw [hic]
        simp [exclusiveComponents]
      have hnm : rule.component.value ∉ st.applied :=
        fun hm => hnotskip ⟨hmemx, hm⟩
      have h0 : infraCount st.result.breakdown = 0 :=
        hinv.infra_unapplied (hic ▸ hnm)
      show infraCount (st.result.breakdown ++ [_]) ≤ 1
      rw [infraCount_append, h0]
      simp [hic]
    · show infraCount (st.result.breakdown ++ [_]) ≤ 1
      rw [infraCount_append]
      have : (rule.component.value == "port_infrastructure_dues") = false := by
        simpa using hic
      simp only [this, Bool.false_eq_true, if_false, Nat.add_zero]
      exact hinv.infra_le
  · intro habs
    by_cases hic : rule.component.value = "port_infrastructure_dues"
    · exfalso
      apply habs
      apply mem_markApplied_infra rule st.applied bd hic
      rcases hshape with ⟨hie, rfl⟩ | ⟨b, rfl, _, _⟩
      · exact .inr hie
      · exact .inl rfl
    · have hnm : "port_infrastructure_dues" ∉ st.applied :=
        not_mem_markApplied rule st.applied bd _ habs
      have h0 := hinv.infra_unapplied hnm
      show infraCount (st.result.breakdown ++ [_]) = 0
      rw [infraCount_append, h0]
      have : (rule.component.value == "port_infrastructure_dues") = false := by
        simpa using hic
      simp [this]
  · intro x hx r hxr
    simp only [CalculationResult.add_component, List.mem_append,
      List.mem_singleton] at hx
    rcases hx with hx | hx
    · exact hinv.applied_ok x hx r hxr
    · subst hx
      simp only [Option.some.injEq] at hxr
      subst hxr
      rcases hshape with ⟨hie, _⟩ | ⟨b, _, hmem, htype⟩
      · exact .inl (List.isEmpty_iff.1 hie)
      · refine .inr ⟨b, hmem, ?_⟩
        rcases htype with ht | ht <;> rw [ht] <;> decide

/-- The invariant is preserved when a rule marks its component but
records no cost. -/
theorem LoopInv.mark (st : CalcState) (hinv : LoopInv st)
    (rule : TariffRule) (bd : Option Band) :
    LoopInv { result := st.result
              applied := markApplied rule st.applied bd } := by
  constructor
  · exact hinv.total_eq
  · exact hinv.comp_eq
  · exact hinv.len_eq
  · exact hinv.rules_some
  · exact hinv.infra_le
  · intro habs
    exact hinv.infra_unapplied (not_mem_markApplied rule st.applied bd _ habs)
  · exact hinv.applied_ok

/-- One pass of the `calculate` loop body preserves the loop invariant. -/
theorem processRule_inv (ctx : Ctx) (st : CalcState) (rule : TariffRule)
    (st2 : CalcState) (h : processRule ctx st rule = .ok st2)
    (hinv : LoopInv st) : LoopInv st2 := by
  unfold processRule at h
  split at h
  · simp only [Except.ok.injEq] at h
    subst h
    exact hinv
  · split at h
    · simp only [Except.ok.injEq] at h
      subst h
      exact hinv
    · split at h
      · simp only [Except.ok.injEq] at h
        subst h
        exact hinv
      · split at h
        · simp only [Except.ok.injEq] at h
          subst h
          exact hinv
        · rename_i h1 h2 h3 h4
          split at h
          · simp at h
          · simp only [Except.ok.injEq] at h
            subst h
            exact hinv
          · rename_i bd hbs
            split at h
            · simp only [Except.ok.injEq] at h
              subst h
              exact hinv
            · rename_i h5
              split at h
              · simp at h
              · rename_i qov hso
                split at h
                · simp at h
                · rename_i cost hcost
                  split at h
                  · simp only [Except.ok.injEq] at h
                    subst h
                    exact LoopInv.add ctx st hinv rule bd cost _ h4 hbs
                  · simp only [Except.ok.injEq] at h
                    subst h
                    exact LoopInv.mark st hinv rule bd

/-- The whole rule loop preserves the loop invariant. -/
theorem processRules_inv (ctx : Ctx) (rules : List TariffRule)
    (st st2 : CalcState) (h : processRules ctx rules st = .ok st2)
    (hinv : LoopInv st) : LoopInv st2 := by
  induction rules generalizing st with
  | nil =>
    simp only [processRules, Except.ok.injEq] at h
    subst h
    exact hinv
  | cons r rs ih =>
    unfold processRules at h
    cases hp : processRule ctx st r with
    | error e =>
      rw [hp] at h
      simp at h
    | ok st1 =>
      rw [hp] at h
      simp only [] at h
      exact ih st1 h (processRule_inv ctx st r st1 hp hinv)

/-- The empty state satisfies the loop invariant. -/
theorem initInv : LoopInv { result := emptyResult, applied := [] } := by
  constructor <;> simp [emptyResult, infraCount]

/-- A successful `calculate` run is the empty result (no vessel type) or
the environmental-discount step applied to an invariant-satisfying loop
state. -/
theorem calculate_ok_cases (p : Params) (db : TariffDatabase)
    (res : CalculationResult) (h : calculate p db = .ok res) :
    res = emptyResult ∨
      ∃ st : CalcState, LoopInv st ∧
        esiStep (buildContext p) st.result = .ok res := by
  unfold calculate at h
  cases hv : p.vessel_type with
  | none =>
    rw [hv] at h
    simp only [Except.ok.injEq] at h
    exact .inl h.symm
  | some vt =>
    rw [hv] at h
    simp only [] at h
    cases hp : processRules (buildContext p)
        (sortRules (db.get_rules (some vt) none))
        { result := emptyResult, applied := [] } with
    | error e =>
      rw [hp] at h
      simp at h
    | ok st =>
      rw [hp] at h
      simp only [] at h
      exact .inr ⟨st, processRules_inv _ _ _ _ hp initInv, h⟩

/-- A successful environmental-discount step either leaves the result
alone or appends the synthetic discount entry. -/
theorem esiStep_ok_cases (ctx : Ctx) (res res2 : CalculationResult)
    (h : esiStep ctx res = .ok res2) :
    res2 = res ∨
      res2 = res.add_component "environmental_discounts"
        (lookupD res.components "port_infrastructure_dues" 0 * (-1 / 10))
        none esiDetails := by
  unfold esiStep at h
  simp only [] at h
  split at h
  · simp only [Except.ok.injEq] at h
    exact .inl h.symm
  · split at h
    · simp at h
    · rename_i e he
      split at h
      · split at h
        · simp only [Except.ok.injEq] at h
          exact .inr h.symm
        · simp only [Except.ok.injEq] at h
          exact .inl h.symm
      · simp only [Except.ok.injEq] at h
        exact .inl h.symm

/-- The discount step is the identity when the stored ESI score is
`None`. -/
theorem esiStep_none (ctx : Ctx) (res : CalculationResult)
    (h : ctxGetD ctx "esi_score" (.intV 0) = .noneV) :
    esiStep ctx res = .ok res := by
  unfold esiStep
  rw [h]
  simp [isNoneV]

/-- The discount step on a numeric ESI score: appends the synthetic
−10 % entry exactly when the score is ≥ 30 and the accumulated
infrastructure dues are positive. -/
theorem esiStep_float (ctx : Ctx) (res : CalculationResult) (e : ℚ)
    (h : ctxGetD ctx "esi_score" (.intV 0) = .floatV e) :
    esiStep ctx res = .ok
      (if 30 ≤ e ∧ 0 < lookupD res.components "port_infrastructure_dues" 0
       then res.add_component "environmental_discounts"
         (lookupD res.components "port_infrastructure_dues" 0 * (-1 / 10))
         none esiDetails
       else res) := by
  unfold esiStep
  rw [h]
  simp only [isNoneV, vNum?, Bool.false_eq_true, if_false]
  by_cases h30 : 30 ≤ e
  · by_cases hd : 0 < lookupD res.components "port_infrastructure_dues" 0
    · simp [h30, hd]
    · simp [h30, hd]
  · simp [h30]

/-- The context stores the ESI score parameter unchanged. -/
theorem buildContext_esi (p : Params) (d : Value) :
    ctxGetD (buildContext p) "esi_score" d = optQN p.esi_score := by
  with_unfolding_all rfl

/-- The context stores the sludge volume parameter unchanged. -/
theorem buildContext_sludge (p : Params) (d : Value) :
    ctxGetD (buildContext p) "sludge_volume" d = optQN p.sludge_volume := by
  with_unfolding_all rfl

/-- C1: a `calculate` run records the `port_infrastructure_dues` component
from at most one rule — once an infrastructure-dues rule has been applied
(band matched or bandless), every later one is skipped, so the breakdown
holds at most one such entry. -/
theorem C1_infra_at_most_one (p : Params) (db : TariffDatabase)
    (res : CalculationResult) (h : calculate p db = .ok res) :
    res.breakdown.countP
      (fun e => e.component == "port_infrastructure_dues") ≤ 1 := by
  rcases calculate_ok_cases p db res h with rfl | ⟨st, hinv, hesi⟩
  · simp [emptyResult]
  · rcases esiStep_ok_cases _ _ _ hesi with rfl | rfl
    · exact hinv.infra_le
    · simp only [CalculationResult.add_component, List.countP_append,
        List.countP_cons, List.countP_nil]
      simp only [show ((("environmental_discounts" : String) ==
        "port_infrastructure_dues") = false) from by decide,
        Bool.false_eq_true, if_false, Nat.add_zero]
      exact hinv.infra_le

/-- An unconditional flat infrastructure-dues rule. -/
def c1rule1 : TariffRule :=
  { vessel_type := .tankers, component := .port_infrastructure_dues,
    charging_method := .per_gt, pricing := { rate := some 10 },
    description := some "infra dues A" }

/-- A second competing infrastructure-dues rule. -/
def c1rule2 : TariffRule :=
  { vessel_type := .tankers, component := .port_infrastructure_dues,
    charging_method := .per_gt, pricing := { rate := some 20 },
    description := some "infra dues B" }

/-- Tanker parameters with a gross tonnage. -/
def c1p : Params := { vessel_type := some .tankers, gt := some 100 }

/-- A database with two competing infrastructure-dues rules. -/
def c1db : TariffDatabase := { rules := [c1rule1, c1rule2] }

/-- Witness for C1: with two competing infrastructure-dues rules, at most
one entry is recorded. -/
theorem C1_infra_at_most_one_witness :
    ((calculate c1p c1db).toOption.getD emptyResult).breakdown.countP
      (fun e => e.component == "port_infrastructure_dues") ≤ 1 :=
  C1_infra_at_most_one c1p c1db _ (by with_unfolding_all rfl)

/-- C9: after every successful `calculate` run, the total equals the sum
of the breakdown costs, which equals the sum of the component-map values,
and the breakdown and applied-rules lists have equal length. -/
theorem C9_result_accounting (p : Params) (db : TariffDatabase)
    (res : CalculationResult) (h : calculate p db = .ok res) :
    res.total = (res.breakdown.map (fun e => e.cost)).sum ∧
    (res.components.map (fun c => c.2)).sum =
      (res.breakdown.map (fun e => e.cost)).sum ∧
    res.breakdown.length = res.applicable_rules.length := by
  rcases calculate_ok_cases p db res h with rfl | ⟨st, hinv, hesi⟩
  · simp [emptyResult]
  · rcases esiStep_ok_cases _ _ _ hesi with rfl | rfl
    · exact ⟨hinv.total_eq, hinv.comp_eq, hinv.len_eq⟩
    · refine ⟨?_, ?_, ?_⟩
      · simp [CalculationResult.add_component, hinv.total_eq]
      · simp [CalculationResult.add_component, componentsAdd_sum,
          hinv.comp_eq]
      · simp [CalculationResult.add_component, hinv.len_eq]

/-- Witness for C9 on the two-rule database. -/
theorem C9_result_accounting_witness :
    ((calculate c1p c1db).toOption.getD emptyResult).total =
      (((calculate c1p c1db).toOption.getD emptyResult).breakdown.map
        (fun e => e.cost)).sum ∧
    (((calculate c1p c1db).toOption.getD emptyResult).components.map
      (fun c => c.2)).sum =
      (((calculate c1p c1db).toOption.getD emptyResult).breakdown.map
        (fun e => e.cost)).sum ∧
    ((calculate c1p c1db).toOption.getD emptyResult).breakdown.length =
      ((calculate c1p c1db).toOption.getD
        emptyResult).applicable_rules.length :=
  C9_result_accounting c1p c1db _ (by with_unfolding_all rfl)

/-- A scan for a band type carried by no band of the rule fails. -/
theorem findBandLoop_none_of_no_type (bands : List Band) (v : ℚ)
    (t : String) (h : ∀ b ∈ bands, b.band_type ≠ t) :
    findBandLoop bands v t = none := by
  induction bands with
  | nil => rfl
  | cons x rest ih =>
    unfold findBandLoop
    rw [if_neg (h x (List.mem_cons_self _ _))]
    exact ih (fun b hb => h b (List.mem_cons_of_mem _ hb))

/-- C10: `calculate` looks bands up only under the tags `"standard"` and
`"gt_range"`, never `"gt"`; hence (1) for a rule all of whose bands carry
`band_type = "gt"` both lookups fail for every value, and (2) no rule
recorded in `applicable_rules` by a successful run is a nonempty-banded
rule with only `"gt"` bands. -/
theorem C10_gt_banded_rules_inert :
    (∀ (rule : TariffRule) (v : ℚ), rule.bands ≠ [] →
      (∀ b ∈ rule.bands, b.band_type = "gt") →
      find_applicable_band rule v "standard" = none ∧
      find_applicable_band rule v "gt_range" = none) ∧
    (∀ (p : Params) (db : TariffDatabase) (res : CalculationResult),
      calculate p db = .ok res →
      ∀ x ∈ res.applicable_rules, ∀ r : TariffRule, x = some r →
      r.bands ≠ [] → ¬(∀ b ∈ r.bands, b.band_type = "gt")) := by
  constructor
  · intro rule v _ hall
    constructor
    · unfold find_applicable_band
      rw [findBandLoop_none_of_no_type rule.bands v "standard"
        (fun b hb => by rw [hall b hb]; decide)]
      simp
    · unfold find_applicable_band
      rw [findBandLoop_none_of_no_type rule.bands v "gt_range"
        (fun b hb => by rw [hall b hb]; decide)]
      simp
  · intro p db res h x hx r hxr hne hall
    rcases calculate_ok_cases p db res h with rfl | ⟨st, hinv, hesi⟩
    · simp [emptyResult] at hx
    · have main : ∀ y ∈ st.result.applicable_rules, y = some r → False := by
        intro y hy hyr
        rcases hinv.applied_ok y hy r hyr with hB | ⟨b, hmem, hb⟩
        · exact hne hB
        · exact hb (hall b hmem)
      rcases esiStep_ok_cases _ _ _ hesi with rfl | rfl
      · exact main x hx hxr
      · simp only [CalculationResult.add_component, List.mem_append,
          List.mem_singleton] at hx
        rcases hx with hx | hx
        · exact main x hx hxr
        · subst hx
          exact Option.noConfusion hxr

/-- A rule whose bands all carry the canonical tag `"gt"`. -/
def c10gtrule : TariffRule :=
  { vessel_type := .tankers, component := .port_infrastructure_dues,
    charging_method := .per_gt,
    bands := [{ name := "GT_all", min_value := some 0, max_value := none,
                band_type := "gt" }],
    pricing := { rate := some 10 } }

/-- A banded rule carrying the legacy `"standard"` tag, which does get
applied. -/
def c10wrule : TariffRule :=
  { vessel_type := .tankers, component := .port_infrastructure_dues,
    charging_method := .per_gt,
    bands := [{ name := "b0", min_value := some 0, max_value := none,
                band_type := "standard" }],
    pricing := { rate := some 10 } }

/-- A database holding only the `"standard"`-banded rule. -/
def c10db : TariffDatabase := { rules := [c10wrule] }

/-- Witness for C10: the all-`"gt"` rule matches no band under either
looked-up tag, and a concrete applied rule is not all-`"gt"`-banded. -/
theorem C10_gt_banded_rules_inert_witness :
    (find_applicable_band c10gtrule 5000 "standard" = none ∧
     find_applicable_band c10gtrule 5000 "gt_range" = none) ∧
    ¬(∀ b ∈ c10wrule.bands, b.band_type = "gt") := by
  constructor
  · exact C10_gt_banded_rules_inert.1 c10gtrule 5000 (by decide) (by decide)
  · refine C10_gt_banded_rules_inert.2 c1p c10db
      ((calculate c1p c10db).toOption.getD emptyResult)
      (by with_unfolding_all rfl) (some c10wrule) ?_ c10wrule rfl (by decide)
    have hrw : ((calculate c1p c10db).toOption.getD
        emptyResult).applicable_rules = [some c10wrule] := by
      with_unfolding_all rfl
    rw [hrw]
    exact List.mem_singleton_self _

/-- C2: the synthetic `environmental_discounts` entry (a breakdown entry
whose parallel `applicable_rules` slot is the null marker) appears in a
successful `calculate` result iff the ESI score parameter is present and
≥ 30 and the accumulated `port_infrastructure_dues` cost is strictly
positive; it appears at most once, its cost is exactly −10 % of that
accumulated cost, and the component map then carries the
`environmental_discounts` key. -/
theorem C2_environmental_discount (p : Params) (db : TariffDatabase)
    (res : CalculationResult) (h : calculate p db = .ok res) :
    ((∃ pr ∈ res.breakdown.zip res.applicable_rules,
        pr.1.component = "environmental_discounts" ∧ pr.2 = none) ↔
      ((∃ e, p.esi_score = some e ∧ 30 ≤ e) ∧
        0 < lookupD res.components "port_infrastructure_dues" 0)) ∧
    (∀ pr ∈ res.breakdown.zip res.applicable_rules,
      pr.1.component = "environmental_discounts" → pr.2 = none →
      pr.1.cost =
        -(lookupD res.components "port_infrastructure_dues" 0 / 10)) ∧
    ((res.breakdown.zip res.applicable_rules).countP
      (fun pr => pr.1.component == "environmental_discounts" &&
        pr.2.isNone) ≤ 1) ∧
    (((∃ e, p.esi_score = some e ∧ 30 ≤ e) ∧
        0 < lookupD res.components "port_infrastructure_dues" 0) →
      hasKey res.components "environmental_discounts" = true) := by
  rcases calculate_ok_cases p db res h with rfl | ⟨st, hinv, hesi⟩
  · refine ⟨?_, ?_, ?_, ?_⟩ <;> simp [emptyResult, lookupD]
  · have hsome : ∀ pr ∈ st.result.breakdown.zip st.result.applicable_rules,
        pr.2 ≠ none := by
      intro pr hpr
      exact hinv.rules_some pr.2 (List.of_mem_zip hpr).2
    have hcount0 : (st.result.breakdown.zip
        st.result.applicable_rules).countP
        (fun pr => pr.1.component == "environmental_discounts" &&
          pr.2.isNone) = 0 := by
      rw [List.countP_eq_zero]
      intro pr hpr hb
      simp only [Bool.and_eq_true, Option.isNone_iff_eq_none] at hb
      exact hsome pr hpr hb.2
    cases hes : p.esi_score with
    | none =>
      have hctx : ctxGetD (buildContext p) "esi_score" (.intV 0) =
          .noneV := by
        rw [buildContext_esi, hes]
        rfl
      rw [esiStep_none (buildContext p) st.result hctx] at hesi
      simp only [Except.ok.injEq] at hesi
      subst hesi
      refine ⟨?_, ?_, ?_, ?_⟩
      · constructor
        · rintro ⟨pr, hpr, _, h2⟩
          exact absurd h2 (hsome pr hpr)
        · rintro ⟨⟨e, he, _⟩, _⟩
          exact Option.noConfusion he
      · intro pr hpr _ h2
        exact absurd h2 (hsome pr hpr)
      · rw [hcount0]
        exact Nat.zero_le 1
      · rintro ⟨⟨e, he, _⟩, _⟩
        exact Option.noConfusion he
    | some e =>
      have hctx : ctxGetD (buildContext p) "esi_score" (.intV 0) =
          .floatV e := by
        rw [buildContext_esi, hes]
        rfl
      rw [esiStep_float (buildContext p) st.result e hctx] at hesi
      simp only [Except.ok.injEq] at hesi
      subst hesi
      by_cases hcond : 30 ≤ e ∧
          0 < lookupD st.result.components "port_infrastructure_dues" 0
      · rw [if_pos hcond]
        have hdfinal : lookupD
            (componentsAdd st.result.components "environmental_discounts"
              (lookupD st.result.components "port_infrastructure_dues" 0 *
                (-1 / 10)))
            "port_infrastructure_dues" 0 =
            lookupD st.result.components "port_infrastructure_dues" 0 :=
          lookupD_componentsAdd_ne _ _ _ _ _ (by decide)
        have hzip : ((st.result.add_component "environmental_discounts"
            (lookupD st.result.components "port_infrastructure_dues" 0 *
              (-1 / 10)) none esiDetails).breakdown).zip
            ((st.result.add_component "environmental_discounts"
              (lookupD st.result.components "port_infrastructure_dues" 0 *
                (-1 / 10)) none esiDetails).applicable_rules) =
            st.result.breakdown.zip st.result.applicable_rules ++
            [({ component := "environmental_discounts"
                cost := lookupD st.result.components
                  "port_infrastructure_dues" 0 * (-1 / 10)
                rule_description := some "environmental_discounts"
                details := esiDetails }, none)] := by
          simp only [CalculationResult.add_component]
          rw [List.zip_append hinv.len_eq]
          rfl
        refine ⟨?_, ?_, ?_, ?_⟩
        · apply iff_of_true
          · refine ⟨({ component := "environmental_discounts"
                       cost := lookupD st.result.components
                         "port_infrastructure_dues" 0 * (-1 / 10)
                       rule_description := some "environmental_discounts"
                       details := esiDetails }, none), ?_, rfl, rfl⟩
            rw [hzip]
            exact List.mem_append_right _ (List.mem_singleton_self _)
          · refine ⟨⟨e, rfl, hcond.1⟩, ?_⟩
            simp only [CalculationResult.add_component]
            rw [hdfinal]
            exact hcond.2
        · intro pr hpr hc h2
          rw [hzip] at hpr
          rcases List.mem_append.1 hpr with hpr | hpr
          · exact absurd h2 (hsome pr hpr)
          · rw [List.mem_singleton] at hpr
            subst hpr
            simp only [CalculationResult.add_component]
            rw [hdfinal]
            ring
        · rw [hzip, List.countP_append, hcount0]
          simp [List.countP_cons]
        · intro _
          simp only [CalculationResult.add_component]
          exact hasKey_componentsAdd _ _ _
      · rw [if_neg hcond]
        refine ⟨?_, ?_, ?_, ?_⟩
        · constructor
          · rintro ⟨pr, hpr, _, h2⟩
            exact absurd h2 (hsome pr hpr)
          · rintro ⟨⟨e2, he2, h30⟩, hd⟩
            simp only [Option.some.injEq] at he2
            subst he2
            exact absurd ⟨h30, hd⟩ hcond
        · intro pr hpr _ h2
          exact absurd h2 (hsome pr hpr)
        · rw [hcount0]
          exact Nat.zero_le 1
        · rintro ⟨⟨e2, he2, h30⟩, hd⟩
          simp only [Option.some.injEq] at he2
          subst he2
          exact absurd ⟨h30, hd⟩ hcond

/-- Parameters qualifying for the ESI discount (score 35). -/
def c2p : Params :=
  { vessel_type := some .tankers, gt := some 5000, esi_score := some 35 }

/-- A database with one unconditional per-GT infrastructure-dues rule. -/
def c2db : TariffDatabase := { rules := [c1rule1] }

/-- Witness for C2 on a run where the discount fires (score 35, dues
50000): the synthetic entry count is at most one. -/
theorem C2_environmental_discount_witness :
    (((calculate c2p c2db).toOption.getD emptyResult).breakdown.zip
      ((calculate c2p c2db).toOption.getD emptyResult).applicable_rules).countP
      (fun pr => pr.1.component == "environmental_discounts" &&
        pr.2.isNone) ≤ 1 :=
  (C2_environmental_discount c2p c2db
    ((calculate c2p c2db).toOption.getD emptyResult)
    (by with_unfolding_all rfl)).2.2.1

/-- Generic characterization of one loop pass: the accumulator is either
untouched, or the rule was applicable and exactly one entry (whose cost
comes from `sludgeOverride` + `calculate_component_cost`) was appended in
lockstep with `some rule`. -/
theorem processRule_append (ctx : Ctx) (st st2 : CalcState)
    (r : TariffRule) (h : processRule ctx st r = .ok st2) :
    st2.result = st.result ∨
    (check_rule_applicable r ctx = true ∧
      ∃ (e2 : BreakdownEntry) (qov : Option ℚ) (cost : ℚ),
        st2.result.breakdown = st.result.breakdown ++ [e2] ∧
        st2.result.applicable_rules =
          st.result.applicable_rules ++ [some r] ∧
        sludgeOverride ctx r = .ok qov ∧
        calculate_component_cost r ctx qov = .ok cost ∧
        e2.cost = cost) := by
  unfold processRule at h
  split at h
  · simp only [Except.ok.injEq] at h
    subst h
    exact .inl rfl
  · rename_i h1
    have happ : check_rule_applicable r ctx = true := by
      revert h1
      cases check_rule_applicable r ctx <;> simp
    split at h
    · simp only [Except.ok.injEq] at h
      subst h
      exact .inl rfl
    · split at h
      · simp only [Except.ok.injEq] at h
        subst h
        exact .inl rfl
      · split at h
        · simp only [Except.ok.injEq] at h
          subst h
          exact .inl rfl
        · split at h
          · simp at h
          · simp only [Except.ok.injEq] at h
            subst h
            exact .inl rfl
          · rename_i bd hbs
            split at h
            · simp only [Except.ok.injEq] at h
              subst h
              exact .inl rfl
            · split at h
              · simp at h
              · rename_i qov hso
                split at h
                · simp at h
                · rename_i cost hcost
                  split at h
                  · simp only [Except.ok.injEq] at h
                    subst h
                    refine .inr ⟨happ,
                      { component := r.component.value, cost := cost,
                        rule_description := r.description,
                        details := ruleDetails r bd },
                      qov, cost, ?_, ?_, hso, hcost, rfl⟩
                    · simp [CalculationResult.add_component]
                    · simp [CalculationResult.add_component]
                  · simp only [Except.ok.injEq] at h
                    subst h
                    exact .inl rfl

/-- A non-arrival condition of an applicable rule must itself evaluate to
true (it sits on the AND side of both applicability shapes). -/
theorem applicable_eval_nonarrival (rule : TariffRule) (ctx : Ctx)
    (c : Condition) (hc : c ∈ rule.conditions)
    (hna : isArrivalEqCond c = false)
    (h : check_rule_applicable rule ctx = true) :
    evaluate_condition c ctx = true := by
  unfold check_rule_applicable at h
  have hne : rule.conditions.isEmpty = false := by
    cases hemp : rule.conditions with
    | nil => rw [hemp] at hc; cases hc
    | cons a l => rfl
  rw [hne] at h
  simp only [Bool.false_eq_true, if_false] at h
  split at h
  · rw [Bool.and_eq_true] at h
    refine List.all_eq_true.1 h.2 c (List.mem_filter.2 ⟨hc, ?_⟩)
    simp [hna]
  · exact List.all_eq_true.1 h c hc

/-- The built context has no `"quantity"` key. -/
theorem ctxGet_buildContext_quantity (p : Params) :
    ctxGet (buildContext p) "quantity" = Value.noneV := by
  with_unfolding_all rfl

/-- The built context stores the sludge volume under `"sludge_volume"`. -/
theorem ctxGet_buildContext_sludge (p : Params) :
    ctxGet (buildContext p) "sludge_volume" = optQN p.sludge_volume := by
  with_unfolding_all rfl

/-- Facts about an applicable per-volume excess-sludge rule (per-volume
sludge component, a condition `quantity/sludge_volume (more than) 11`,
pure rate pricing): the sludge volume parameter is present and exceeds
11, the override step yields the excess volume, and the cost step yields
`rate * excess`. -/
theorem c3_rule_facts (rule : TariffRule) (c : Condition) (rate : ℚ)
    (hcomp : rule.component = .sludge_oily_bilge_water)
    (hmeth : rule.charging_method = .per_m3)
    (hrate : rule.pricing.rate = some rate)
    (hpct : rule.pricing.percentage = none)
    (hmin : rule.pricing.min_charge = none)
    (hmax : rule.pricing.max_charge = none)
    (hc : c ∈ rule.conditions)
    (hfield : c.field = "quantity" ∨ c.field = "sludge_volume")
    (hop : c.operator.toLower = "more than")
    (hval11 : sSub "11" (pyStr c.value) = true)
    (hvalnum : vNum? (pyTryNum c.value) = some 11)
    (p : Params)
    (happ : check_rule_applicable rule (buildContext p) = true) :
    ∃ sv, p.sludge_volume = some sv ∧ 11 < sv ∧
      sludgeOverride (buildContext p) rule = .ok (some (sv - 11)) ∧
      calculate_component_cost rule (buildContext p) (some (sv - 11)) =
        .ok (rate * (sv - 11)) := by
  have hna : isArrivalEqCond c = false := by
    unfold isArrivalEqCond
    rcases hfield with hf | hf <;> rw [hf] <;> rfl
  have heval := applicable_eval_nonarrival rule (buildContext p) c hc hna happ
  have halias : fieldAlias c.field = "sludge_volume" := by
    rcases hfield with hf | hf <;> rw [hf] <;> rfl
  have hresolve : resolveField c (buildContext p) = optQN p.sludge_volume := by
    unfold resolveField
    rw [halias, ctxGet_buildContext_sludge]
    cases hs : p.sludge_volume with
    | none =>
      simp only [optQN, isNoneV, if_pos]
      rcases hfield with hf | hf <;> rw [hf]
      · exact ctxGet_buildContext_quantity p
      · rw [ctxGet_buildContext_sludge, hs]
        rfl
    | some sv => rfl
  unfold evaluate_condition at heval
  simp only [] at heval
  rw [hresolve] at heval
  cases hs : p.sludge_volume with
  | none =>
    rw [hs] at heval
    simp [optQN, isNoneV] at heval
  | some sv =>
    rw [hs] at heval
    simp only [optQN, isNoneV, Bool.false_eq_true, if_false] at heval
    rw [hop] at heval
    simp only [show (("more than" : String) ∈ eqOps) = False by simp [eqOps],
      show (("more than" : String) ∈ neOps) = False by simp [neOps],
      show (("more than" : String) ∈ gtOps) = True by simp [gtOps],
      if_false, if_true] at heval
    unfold ordCmp at heval
    simp only [] at heval
    rw [show vNum? (pyTryNum (Value.floatV sv)) = some sv from rfl,
      hvalnum] at heval
    simp only [] at heval
    have h11 : (11 : ℚ) < sv := of_decide_eq_true heval
    have hcompv : rule.component.value = "sludge_oily_bilge_water" := by
      rw [hcomp]
      rfl
    have hmethv : rule.charging_method.value = "per_m3" := by
      rw [hmeth]
      rfl
    refine ⟨sv, rfl, h11, ?_, ?_⟩
    · unfold sludgeOverride
      rw [if_pos ⟨hcompv, hmethv⟩]
      have hget : ctxGetD (buildContext p) "sludge_volume" (.intV 0) =
          Value.floatV sv := by
        rw [buildContext_sludge, hs]
        rfl
      rw [hget]
      simp only [vNum?]
      rw [if_pos h11]
      have hexc : hasExceedingCondition rule = true := by
        unfold hasExceedingCondition
        rw [List.any_eq_true]
        refine ⟨c, hc, ?_⟩
        simp only [Bool.and_eq_true, Bool.or_eq_true, beq_iff_eq]
        refine ⟨⟨hfield, ?_⟩, hval11⟩
        rw [hop]
        rfl
      rw [if_pos hexc]
    · unfold calculate_component_cost resolvedQuantity
      simp only [hrate, hpct, hmin, hmax, vNum?]

/-- A per-volume excess-sludge rule with a `more than 11` condition but a
percentage adjustment in its pricing. -/
def c3rule : TariffRule :=
  { vessel_type := .tankers, component := .sludge_oily_bilge_water,
    charging_method := .per_m3,
    conditions := [{ field := "sludge_volume", operator := "more than",
                     value := .strV "11" }],
    pricing := { rate := some 150, percentage := some (-10) } }

/-- Tanker parameters with 15 m³ of sludge. -/
def c3p15 : Params :=
  { vessel_type := some .tankers, sludge_volume := some 15 }

/-- C3 counterexample: the rule satisfies everything the claim asks of it
(per-volume sludge, condition field `sludge_volume`, operator containing
"more than", value mentioning 11) but carries a −10 % pricing adjustment;
at sludge volume 15 the recorded line costs `150 * 4 * 0.9 = 540`, not
`rate * (15 − 11) = 600` as the claim states. -/
theorem C3_counterexample :
    (calculate c3p15 { rules := [c3rule] }).toOption.map
      (fun r => r.breakdown.map (fun e => e.cost)) = some [540] ∧
    (540 : ℚ) ≠ 150 * ((15 : ℚ) - 11) := by
  constructor
  · with_unfolding_all rfl
  · with_unfolding_all decide

/-- C3 as amended: for a per-volume sludge rule with pure rate pricing
(no percentage and no clamps) carrying a condition on
`quantity`/`sludge_volume` whose lowercased operator is exactly
`more than` and whose value textually mentions 11 and numerically parses
to 11, every breakdown entry that a successful `calculate` run attributes
to that rule implies the sludge volume parameter is present and exceeds
11, and the entry costs exactly `rate * (sludge_volume − 11)`; in
particular no such entry exists when the volume is absent or ≤ 11. -/
theorem C3_sludge_excess_amended (rule : TariffRule) (c : Condition)
    (rate : ℚ)
    (hcomp : rule.component = .sludge_oily_bilge_water)
    (hmeth : rule.charging_method = .per_m3)
    (hrate : rule.pricing.rate = some rate)
    (hpct : rule.pricing.percentage = none)
    (hmin : rule.pricing.min_charge = none)
    (hmax : rule.pricing.max_charge = none)
    (hc : c ∈ rule.conditions)
    (hfield : c.field = "quantity" ∨ c.field = "sludge_volume")
    (hop : c.operator.toLower = "more than")
    (hval11 : sSub "11" (pyStr c.value) = true)
    (hvalnum : vNum? (pyTryNum c.value) = some 11) :
    ∀ (p : Params) (db : TariffDatabase) (res : CalculationResult),
      calculate p db = .ok res →
      ∀ pr ∈ res.breakdown.zip res.applicable_rules, pr.2 = some rule →
      ∃ sv, p.sludge_volume = some sv ∧ 11 < sv ∧
        pr.1.cost = rate * (sv - 11) := by
  intro p db res h
  unfold calculate at h
  cases hv : p.vessel_type with
  | none =>
    rw [hv] at h
    simp only [Except.ok.injEq] at h
    subst h
    intro pr hpr
    simp [emptyResult] at hpr
  | some vt =>
    rw [hv] at h
    simp only [] at h
    cases hp : processRules (buildContext p)
        (sortRules (db.get_rules (some vt) none))
        { result := emptyResult, applied := [] } with
    | error e =>
      rw [hp] at h
      simp at h
    | ok st =>
      rw [hp] at h
      simp only [] at h
      have loop : ∀ (rules : List TariffRule) (s1 s2 : CalcState),
          processRules (buildContext p) rules s1 = .ok s2 → LoopInv s1 →
          (∀ pr ∈ s1.result.breakdown.zip s1.result.applicable_rules,
            pr.2 = some rule →
            ∃ sv, p.sludge_volume = some sv ∧ 11 < sv ∧
              pr.1.cost = rate * (sv - 11)) →
          (∀ pr ∈ s2.result.breakdown.zip s2.result.applicable_rules,
            pr.2 = some rule →
            ∃ sv, p.sludge_volume = some sv ∧ 11 < sv ∧
              pr.1.cost = rate * (sv - 11)) := by
        intro rules
        induction rules with
        | nil =>
          intro s1 s2 hpr hinv IH
          simp only [processRules, Except.ok.injEq] at hpr
          subst hpr
          exact IH
        | cons r rs ih =>
          intro s1 s2 hpr hinv IH
          unfold processRules at hpr
          cases hp1 : processRule (buildContext p) s1 r with
          | error e =>
            rw [hp1] at hpr
            simp at hpr
          | ok s3 =>
            rw [hp1] at hpr
            simp only [] at hpr
            refine ih s3 s2 hpr (processRule_inv _ _ _ _ hp1 hinv) ?_
            rcases processRule_append _ _ _ _ hp1 with hsame |
              ⟨happ, e2, qov, cost, hb, hr, hso, hcost, hec⟩
            · rw [hsame]
              exact IH
            · intro pr hpr2 hpr3
              rw [hb, hr, List.zip_append hinv.len_eq] at hpr2
              rcases List.mem_append.1 hpr2 with hpr2 | hpr2
              · exact IH pr hpr2 hpr3
              · simp only [List.zip_cons_cons, List.zip_nil_right,
                  List.mem_singleton] at hpr2
                subst hpr2
                simp only [Option.some.injEq] at hpr3
                subst hpr3
                obtain ⟨sv, hsv, h11, hso2, hcost2⟩ :=
                  c3_rule_facts _ c rate hcomp hmeth hrate hpct hmin hmax
                    hc hfield hop hval11 hvalnum p happ
                have hq : qov = some (sv - 11) := by
                  have h2 := hso.symm.trans hso2
                  simpa using h2
                subst hq
                have hcq : cost = rate * (sv - 11) := by
                  have h2 := hcost.symm.trans hcost2
                  simpa using h2
                exact ⟨sv, hsv, h11, by rw [hec, hcq]⟩
      have hloopres := loop _ _ _ hp initInv
        (by intro pr hpr; simp [emptyResult] at hpr)
      have hinvst := processRules_inv _ _ _ _ hp initInv
      rcases esiStep_ok_cases _ _ _ h with hres | hres
      · subst hres
        exact hloopres
      · subst hres
        intro pr hpr hpr2
        simp only [CalculationResult.add_component] at hpr
        rw [List.zip_append hinvst.len_eq] at hpr
        rcases List.mem_append.1 hpr with hpr | hpr
        · exact hloopres pr hpr hpr2
        · simp only [List.zip_cons_cons, List.zip_nil_right,
            List.mem_singleton] at hpr
          subst hpr
          simp at hpr2

/-- The condition of the witness rule for the amended C3. -/
def c3wcond : Condition :=
  { field := "sludge_volume", operator := "more than", value := .strV "11" }

/-- The witness rule for the amended C3: pure rate pricing. -/
def c3wrule : TariffRule :=
  { vessel_type := .tankers, component := .sludge_oily_bilge_water,
    charging_method := .per_m3,
    conditions := [c3wcond],
    pricing := { rate := some 150 } }

/-- The witness database for the amended C3. -/
def c3wdb : TariffDatabase := { rules := [c3wrule] }

/-- The recorded pair of the amended-C3 witness run. -/
def c3wpair : BreakdownEntry × Option TariffRule :=
  ({ component := "sludge_oily_bilge_water", cost := 600,
     rule_description := none, details := ruleDetails c3wrule none },
   some c3wrule)

/-- Witness for the amended C3: with sludge volume 15 and rate 150, the
recorded line costs `150 * (15 − 11)`. -/
theorem C3_sludge_excess_amended_witness :
    ∃ sv, c3p15.sludge_volume = some sv ∧ 11 < sv ∧
      c3wpair.1.cost = 150 * (sv - 11) := by
  refine C3_sludge_excess_amended c3wrule c3wcond 150 rfl rfl rfl rfl rfl
    rfl (List.mem_singleton_self _) (.inr rfl) (by with_unfolding_all rfl)
    (by with_unfolding_all rfl) (by with_unfolding_all rfl) c3p15 c3wdb
    ((calculate c3p15 c3wdb).toOption.getD emptyResult)
    (by with_unfolding_all rfl) c3wpair ?_ rfl
  have hzip : (((calculate c3p15 c3wdb).toOption.getD
      emptyResult).breakdown.zip
      ((calculate c3p15 c3wdb).toOption.getD
        emptyResult).applicable_rules) = [c3wpair] := by
    with_unfolding_all rfl
  rw [hzip]
  exact List.mem_singleton_self _

/-- A conditionless per-volume sludge rule. -/
def c4rule : TariffRule :=
  { vessel_type := .tankers, component := .sludge_oily_bilge_water,
    charging_method := .per_m3, pricing := { rate := some 150 } }

/-- Tanker parameters with no sludge volume. -/
def c4p : Params := { vessel_type := some .tankers }

/-- C4 failing input: with the sludge volume parameter absent, the
context stores `None` under `"sludge_volume"`, and the excess-sludge
check `context.get("sludge_volume", 0) > 11` (whose default never fires
because the key is always present) compares `None` with 11 and raises a
`TypeError` — `calculate` does not return a result. -/
theorem C4_missing_sludge_raises :
    calculate c4p { rules := [c4rule] } =
      .error "TypeError: unsupported comparison between NoneType and int" := by
  with_unfolding_all rfl
